import Mathlib

/-!
# The Darwin HID port engine of libhs (`src/libhs/hid_darwin.c`)

A shallow embedding of the per-port I/O engine: the queue of received input
reports, the free list of report frames, the wake pipe, the removal flag, the
handshake between `open_hid_device` and `hid_read_thread`, and the blocking
`hs_hid_read` / `send_report` entry points.

Conventions of the embedding.

* Bytes are natural numbers; a byte buffer is a `List Nat`.  Buffer sizes are
  sizes of objects in memory, so the casts between `size_t`, `ssize_t` and
  `CFIndex` preserve them; the two places where the source narrows or wraps a
  machine integer (`(uint8_t)report_id`, `allocated_reports++` on an
  `unsigned int`) carry an explicit modulus.
* Each critical section (the code between `pthread_mutex_lock` and
  `pthread_mutex_unlock`) is one atomic step.  The callbacks write their wake
  byte after they have released the mutex, so the critical section and the
  `fire_device_event` that follows it are separate steps, between which other
  threads can run.
* The wake pipe `poll_pipe` is represented by the number of unread bytes it
  holds; both ends are non-blocking, so reading an empty pipe does nothing.
* What the operating system decides (allocation results, `poll` outcomes, the
  events delivered while a thread sleeps) is an explicit argument.
* The leading `assert`s of the public functions state the caller's contract
  and do not touch the port; they are not part of the model.
-/

namespace HidDarwin

/-! ## Error codes -/

/-- Modelled from the spec: the error taxonomy of section 7.  The enumeration
`hs_error_code` is declared in a header that is not among the sources. -/
inductive hs_error_code
  | Memory
  | System
  | NotFound
  | Io
  | Busy
  | Param
  deriving DecidableEq, Repr

/-- The numeric values of the error codes.  The header fixing them is not among
the sources, so they are a parameter; the code only relies on their being
negative (`r < 0` tests). -/
structure hs_error_values where
  code : hs_error_code → Int
  code_neg : ∀ c, code c < 0

/-- `hs_error(err, fmt, ...)` logs the message and returns `err`. -/
def hs_error (E : hs_error_values) (err : hs_error_code) : Int := E.code err

/-- One concrete assignment of error values, used to evaluate the model. -/
def sample_errors : hs_error_values where
  code := fun c =>
    match c with
    | .Memory => -1
    | .NotFound => -2
    | .Io => -4
    | .System => -6
    | .Busy => -7
    | .Param => -8
  code_neg := by intro c; cases c <;> decide

/-! ## Data model -/

/-- `IOHIDReportType`. -/
inductive IOHIDReportType
  | Input
  | Output
  | Feature
  deriving DecidableEq, Repr

/-- `struct hid_report`: a frame buffer `data` (allocated with
`read_size + 1` bytes) of which the first `size` bytes are valid. -/
structure hid_report where
  size : Nat
  data : List Nat
  deriving DecidableEq, Repr

/-- A request handed to the IOKit device `hid_ref`. -/
inductive hid_request
  | set_report (type : IOHIDReportType) (report_id : Nat) (data : List Nat)
  | get_report (type : IOHIDReportType) (report_id : Nat) (len : Nat)
  deriving DecidableEq, Repr

/-- `struct _hs_hid_darwin`, the state of an open port.  `poll_pipe` is the
number of unread bytes in the wake pipe, `reports` the queue of received
frames (head = oldest), `free_reports` the free list (head = most recently
released), `hid_ref` the requests handed to the device so far (oldest first),
`service` / `hid_ref_valid` / `thread_loop` / `shutdown_source` whether the
handle or pointer of that name is non-null (`hid_ref_valid` for `hid_ref`),
and `shutdown_signalled` whether `CFRunLoopSourceSignal` was called on the
shutdown source. -/
structure _hs_hid_darwin where
  service : Bool
  hid_ref_valid : Bool
  hid_ref : List hid_request
  read_size : Nat
  mutex_init : Bool
  poll_pipe : Nat
  thread_ret : Int
  reports : List hid_report
  allocated_reports : Nat
  free_reports : List hid_report
  cond_init : Bool
  thread_loop : Bool
  shutdown_source : Bool
  shutdown_signalled : Bool
  device_removed : Bool
  deriving DecidableEq, Repr

/-- `memcpy(dst, src, n)`: the first `n` bytes of `dst` are replaced by the
first `n` bytes of `src`. -/
def memcpy (dst src : List Nat) (n : Nat) : List Nat :=
  src.take n ++ dst.drop n

/-! ## Wake channel and callbacks -/

/-- `fire_device_event`: writes one byte to the wake pipe. -/
def fire_device_event (port : _hs_hid_darwin) : _hs_hid_darwin :=
  { port with poll_pipe := port.poll_pipe + 1 }

/-- `reset_device_event`: reads one byte from the (non-blocking) wake pipe. -/
def reset_device_event (port : _hs_hid_darwin) : _hs_hid_darwin :=
  { port with poll_pipe := port.poll_pipe - 1 }

/-- The critical section of `hid_removal_callback` (lines 84-87). -/
def hid_removal_callback_locked (port : _hs_hid_darwin) : _hs_hid_darwin :=
  { port with device_removed := true, shutdown_signalled := true }

/-- `hid_removal_callback`, run without another thread in between: the
critical section, then the wake byte (line 89). -/
def hid_removal_callback (port : _hs_hid_darwin) : _hs_hid_darwin :=
  fire_device_event (hid_removal_callback_locked port)

/-- The frame written by `hid_report_callback` into the buffer `report`
(lines 137-143): the report size is clamped to `read_size`, byte 0 receives
the report id and the payload follows.  The pair `report_data`, `report_size`
of the source is the list of the `report_size` bytes found at `report_data`. -/
def fill_report (read_size : Nat) (report : hid_report) (report_id : Nat)
    (report_data : List Nat) : hid_report :=
  let report_size := report_data.length
  let report_size := if report_size > read_size then read_size else report_size
  { size := report_size + 1
    data := (report_id % 256) :: memcpy report.data.tail report_data report_size }

/-- The frame buffer that `calloc` returns for a port (line 129): zeroed, with
room for `read_size` payload bytes and the leading report id. -/
def calloc_report (port : _hs_hid_darwin) : hid_report :=
  { size := 0, data := List.replicate (port.read_size + 1) 0 }

/-- The part of `hid_report_callback` up to `pthread_mutex_unlock` (lines
106-151): the port as the callback leaves it when it releases the mutex, and
the value of `fire`, which tells whether it goes on to write a wake byte.  A
report that is not an input report returns before the mutex is taken.
`calloc_ok` tells whether the `calloc` of a new frame would succeed. -/
def hid_report_callback_locked (E : hs_error_values) (port : _hs_hid_darwin)
    (report_type : IOHIDReportType) (report_id : Nat) (report_data : List Nat)
    (calloc_ok : Bool) : _hs_hid_darwin × Bool :=
  if report_type ≠ IOHIDReportType.Input then (port, false)
  else
    let fire := port.reports.isEmpty
    -- the locked section, with the value of `r` on reaching `cleanup`
    let locked : _hs_hid_darwin × Int :=
      match port.free_reports with
      | report :: free =>
          ({ port with
              free_reports := free
              reports := port.reports ++
                [fill_report port.read_size report report_id report_data] }, 0)
      | [] =>
          if port.allocated_reports = 64 then (port, 0)
          else if !calloc_ok then (port, hs_error E .Memory)
          else
            let report := calloc_report port
            ({ port with
                allocated_reports := (port.allocated_reports + 1) % 2 ^ 32
                reports := port.reports ++
                  [fill_report port.read_size report report_id report_data] }, 0)
    let port1 := if locked.2 < 0 then { locked.1 with thread_ret := locked.2 } else locked.1
    (port1, fire)

/-- `hid_report_callback`, run without another thread in between: the
critical section, then the wake byte when `fire` is set (lines 152-153). -/
def hid_report_callback (E : hs_error_values) (port : _hs_hid_darwin)
    (report_type : IOHIDReportType) (report_id : Nat) (report_data : List Nat)
    (calloc_ok : Bool) : _hs_hid_darwin :=
  let r := hid_report_callback_locked E port report_type report_id report_data calloc_ok
  if r.2 then fire_device_event r.1 else r.1

/-! ## Opening a port -/

/-- `hid_read_thread` up to the point where it publishes its result: it
records its run loop, creates the shutdown source and publishes `1`, or the
`System` error when the source cannot be created. -/
def hid_read_thread (E : hs_error_values) (port : _hs_hid_darwin)
    (source_created : Bool) : _hs_hid_darwin :=
  let port := { port with thread_loop := true }
  if !source_created then
    { port with thread_ret := hs_error E .System }
  else
    { port with shutdown_source := true, thread_ret := 1 }

/-- A callback that the run loop of the reader thread delivers. -/
inductive callback_event
  | input_report (report_type : IOHIDReportType) (report_id : Nat)
      (report_data : List Nat) (calloc_ok : Bool)
  | removal
  deriving DecidableEq, Repr

/-- The effect of a delivered callback on the port. -/
def run_callback (E : hs_error_values) (port : _hs_hid_darwin) :
    callback_event → _hs_hid_darwin
  | .input_report report_type report_id report_data calloc_ok =>
      hid_report_callback E port report_type report_id report_data calloc_ok
  | .removal => hid_removal_callback port

/-- The effect of a sequence of delivered callbacks, oldest first. -/
def run_callbacks (E : hs_error_values) (port : _hs_hid_darwin)
    (cbs : List callback_event) : _hs_hid_darwin :=
  cbs.foldl (run_callback E) port

/-- What can happen while `open_hid_device` sleeps in `pthread_cond_wait`,
which has released the mutex: the opener wakes up (spuriously, or after
`pthread_cond_signal`) and takes the mutex again; the reader thread runs its
start-up section; or, once the reader thread has entered its run loop, a
callback takes the mutex before the opener has woken up. -/
inductive handshake_event
  | wakeup
  | reader_runs (source_created : Bool)
  | callback (c : callback_event)
  deriving DecidableEq, Repr

/-- The opener asleep in `pthread_cond_wait` (line 306).  The schedule lists
the events in the order in which they take the mutex; on a wake-up the loop
condition of line 305 is tested again.  The result is `none` when the
schedule ends with the opener still asleep. -/
def handshake_sleep (E : hs_error_values) :
    _hs_hid_darwin → List handshake_event → Option _hs_hid_darwin
  | _, [] => none
  | port, .wakeup :: es =>
      if port.thread_ret ≠ 0 then some port else handshake_sleep E port es
  | port, .reader_runs source_created :: es =>
      handshake_sleep E (hid_read_thread E port source_created) es
  | port, .callback c :: es => handshake_sleep E (run_callback E port c) es

/-- The loop `while (!thread_ret) pthread_cond_wait(...)` of lines 305-306,
entered with the mutex held: the port as the opener finds it when it leaves
the loop. -/
def handshake_wait (E : hs_error_values) (port : _hs_hid_darwin)
    (sched : List handshake_event) : Option _hs_hid_darwin :=
  if port.thread_ret ≠ 0 then some port else handshake_sleep E port sched

/-- What `close_hid_device` releases: `port` is the port as it was handed to
the function, `loop_stopped` whether the shutdown source was signalled and the
run loop woken (lines 328-331), `thread_joined` whether the reader thread was
joined and the shutdown source released (lines 334-336), then whether the
condition variable and the mutex were destroyed, how many frames were freed
(lines 344-348), and whether the device was closed and the service released
(lines 355-360).  Closing the two ends of the pipe, freeing `read_buf`,
dropping the device reference and freeing the port are unconditional. -/
structure closed_port where
  port : _hs_hid_darwin
  loop_stopped : Bool
  thread_joined : Bool
  cond_destroyed : Bool
  mutex_destroyed : Bool
  reports_freed : Nat
  device_closed : Bool
  service_released : Bool
  deriving DecidableEq, Repr

/-- `close_hid_device` on a non-null port. -/
def close_hid_device (port : _hs_hid_darwin) : closed_port :=
  { port := port
    loop_stopped := port.shutdown_source && port.thread_loop
    thread_joined := port.shutdown_source
    cond_destroyed := port.cond_init
    mutex_destroyed := port.mutex_init
    reports_freed := port.free_reports.length + port.reports.length
    device_closed := port.hid_ref_valid
    service_released := port.service }

/-- The results of the system calls made by `open_hid_device`. -/
structure open_env where
  calloc_ok : Bool
  service_found : Bool
  hid_ref_created : Bool
  device_opened : Bool
  max_input_report_size : Option Nat
  read_buf_ok : Bool
  pipe_r : Int
  mutex_init_r : Int
  cond_init_r : Int
  pthread_create_r : Int
  deriving DecidableEq, Repr

/-- The outcome of `open_hid_device`: `opened port` is `return 0` with
`*rport = port`; `failed r closed` is `return r` after `hs_port_close(port)`,
which hands the port to `close_hid_device`, the `close` entry of the device
table (`closed` is `none` when the port itself could not be allocated, so
that there is nothing to release). -/
inductive open_return
  | opened (port : _hs_hid_darwin)
  | failed (r : Int) (closed : Option closed_port)
  deriving DecidableEq, Repr

/-- The value returned to the caller of `open_hid_device`. -/
def open_return.ret : open_return → Int
  | .opened _ => 0
  | .failed r _ => r

/-- The port as `calloc` and lines 229-233 leave it. -/
def calloc_port : _hs_hid_darwin :=
  { service := false, hid_ref_valid := false,
    hid_ref := [], read_size := 0, mutex_init := false, poll_pipe := 0, thread_ret := 0,
    reports := [], allocated_reports := 0, free_reports := [], cond_init := false,
    thread_loop := false, shutdown_source := false, shutdown_signalled := false,
    device_removed := false }

/-- `open_hid_device`.  `mode_read` is `mode & HS_PORT_MODE_READ`; `sched`
lists what happens while the opener waits for the reader thread.  The result
is `none` when the opener never leaves the wait. -/
def open_hid_device (E : hs_error_values) (env : open_env) (mode_read : Bool)
    (sched : List handshake_event) : Option open_return :=
  if !env.calloc_ok then some (.failed (hs_error E .Memory) none)
  else
    let port := calloc_port
    if !env.service_found then
      some (.failed (hs_error E .NotFound) (some (close_hid_device port)))
    else
    let port := { port with service := true }
    if !env.hid_ref_created then
      some (.failed (hs_error E .NotFound) (some (close_hid_device port)))
    else
    let port := { port with hid_ref_valid := true }
    if !env.device_opened then
      some (.failed (hs_error E .System) (some (close_hid_device port)))
    else if mode_read then
      match env.max_input_report_size with
      | none => some (.failed (hs_error E .System) (some (close_hid_device port)))
      | some n =>
        let port := { port with read_size := n }
        if !env.read_buf_ok then
          some (.failed (hs_error E .Memory) (some (close_hid_device port)))
        else if env.pipe_r < 0 then
          some (.failed (hs_error E .System) (some (close_hid_device port)))
        else if env.mutex_init_r < 0 then
          some (.failed (hs_error E .System) (some (close_hid_device port)))
        else
          let port := { port with mutex_init := true }
          if env.cond_init_r < 0 then
            some (.failed (hs_error E .System) (some (close_hid_device port)))
          else
            let port := { port with cond_init := true }
            if env.pthread_create_r ≠ 0 then
              some (.failed (hs_error E .System) (some (close_hid_device port)))
            else
              match handshake_wait E port sched with
              | none => none
              | some port =>
                let r := port.thread_ret
                let port := { port with thread_ret := 0 }
                if r < 0 then some (.failed r (some (close_hid_device port)))
                else some (.opened port)
    else some (.opened port)

/-! ## Reading -/

/-- What can happen while `hs_hid_read` sleeps in `poll` on the wake pipe: the
reader thread delivers a report, the device is removed, a signal interrupts
the call (`EINTR`), or `poll` fails with another error.  `input_report` and
`removal` are callbacks that run from their critical section to their wake
byte without the sleeper being scheduled in between; `input_report_locked`
and `removal_locked` are their critical sections alone, and `fire` is the
wake byte that a callback writes after it has released the mutex. -/
inductive wait_event
  | input_report (report_type : IOHIDReportType) (report_id : Nat)
      (report_data : List Nat) (calloc_ok : Bool)
  | removal
  | eintr
  | poll_failure
  | input_report_locked (report_type : IOHIDReportType) (report_id : Nat)
      (report_data : List Nat) (calloc_ok : Bool)
  | removal_locked
  | fire
  deriving DecidableEq, Repr

/-- How the wait of lines 401-411 ends. -/
inductive wait_return
  | ready (port : _hs_hid_darwin) (polls : Nat)
  | timed_out (port : _hs_hid_darwin) (polls : Nat)
  | poll_failed (port : _hs_hid_darwin) (polls : Nat)
  | blocked
  deriving DecidableEq, Repr

/-- The `restart:` loop around `poll(&pfd, 1, hs_adjust_timeout(timeout, start))`.
`polls` counts the calls of `poll` made so far, the current one included, and
`env` lists the events that occur before the deadline while the caller
sleeps.  `poll` returns at once when the pipe holds a byte; otherwise the
next event happens.  When the events are exhausted the deadline passes, or,
for a negative (infinite) timeout, the caller sleeps forever. -/
def poll_wait (E : hs_error_values) (timeout : Int) :
    _hs_hid_darwin → Nat → List wait_event → wait_return
  | port, polls, [] =>
      if 0 < port.poll_pipe then .ready port polls
      else if timeout < 0 then .blocked
      else .timed_out port polls
  | port, polls, e :: es =>
      if 0 < port.poll_pipe then .ready port polls
      else
        match e with
        | .input_report report_type report_id report_data calloc_ok =>
            poll_wait E timeout
              (hid_report_callback E port report_type report_id report_data calloc_ok)
              polls es
        | .removal => poll_wait E timeout (hid_removal_callback port) polls es
        | .eintr => poll_wait E timeout port (polls + 1) es
        | .poll_failure => .poll_failed port polls
        | .input_report_locked report_type report_id report_data calloc_ok =>
            poll_wait E timeout
              (hid_report_callback_locked E port report_type report_id report_data calloc_ok).1
              polls es
        | .removal_locked => poll_wait E timeout (hid_removal_callback_locked port) polls es
        | .fire => poll_wait E timeout (fire_device_event port) polls es

/-- The value returned by `hs_hid_read`, the caller's buffer and the port
after the call, and the number of `poll` calls made. -/
structure read_return where
  ret : Int
  buf : List Nat
  port : _hs_hid_darwin
  polls : Nat
  deriving DecidableEq, Repr

/-- The locked section of `hs_hid_read` (lines 414-443). -/
def hs_hid_read_locked (port : _hs_hid_darwin) (buf : List Nat) (size : Nat)
    (polls : Nat) : read_return :=
  if port.thread_ret < 0 then
    let r := port.thread_ret
    let port := { port with thread_ret := 0 }
    -- reset:
    { ret := r, buf := buf, polls := polls
      port := if port.reports.isEmpty then reset_device_event port else port }
  else
    match port.reports with
    | [] => { ret := 0, buf := buf, port := port, polls := polls }
    | report :: rest =>
        let size := if size > report.size then report.size else size
        let port := { port with reports := rest, free_reports := report :: port.free_reports }
        -- reset:
        { ret := (size : Int), buf := memcpy buf report.data size, polls := polls
          port := if port.reports.isEmpty then reset_device_event port else port }

/-- `hs_hid_read`.  `env` lists what happens while the call sleeps in `poll`;
the result is `none` when the call never returns. -/
def hs_hid_read (E : hs_error_values) (port : _hs_hid_darwin) (buf : List Nat)
    (size : Nat) (timeout : Int) (env : List wait_event) : Option read_return :=
  if port.device_removed then
    some { ret := hs_error E .Io, buf := buf, port := port, polls := 0 }
  else if timeout ≠ 0 then
    match poll_wait E timeout port 1 env with
    | .ready port polls => some (hs_hid_read_locked port buf size polls)
    | .timed_out port polls => some { ret := 0, buf := buf, port := port, polls := polls }
    | .poll_failed port polls =>
        some { ret := hs_error E .System, buf := buf, port := port, polls := polls }
    | .blocked => none
  else
    some (hs_hid_read_locked port buf size 0)

/-! ## Writing and feature reports -/

/-- The value returned by a transfer function, the caller's buffer and the
port after the call. -/
structure io_return where
  ret : Int
  buf : List Nat
  port : _hs_hid_darwin
  deriving DecidableEq, Repr

/-- `send_report`.  `kret_ok` tells whether `IOHIDDeviceSetReport` returns
`kIOReturnSuccess`. -/
def send_report (E : hs_error_values) (port : _hs_hid_darwin) (type : IOHIDReportType)
    (buf : List Nat) (size : Nat) (kret_ok : Bool) : io_return :=
  if port.device_removed then { ret := hs_error E .Io, buf := buf, port := port }
  else if size < 2 then { ret := 0, buf := buf, port := port }
  else
    let report := buf.headD 0
    let sent := if report = 0 then (buf.drop 1, size - 1) else (buf, size)
    let port :=
      { port with hid_ref := port.hid_ref ++ [.set_report type report (sent.1.take sent.2)] }
    if !kret_ok then { ret := hs_error E .Io, buf := buf, port := port }
    else { ret := (sent.2 : Int) + (if report = 0 then 1 else 0), buf := buf, port := port }

/-- `hs_hid_write`. -/
def hs_hid_write (E : hs_error_values) (port : _hs_hid_darwin) (buf : List Nat)
    (size : Nat) (kret_ok : Bool) : io_return :=
  send_report E port .Output buf size kret_ok

/-- `hs_hid_send_feature_report`. -/
def hs_hid_send_feature_report (E : hs_error_values) (port : _hs_hid_darwin)
    (buf : List Nat) (size : Nat) (kret_ok : Bool) : io_return :=
  send_report E port .Feature buf size kret_ok

/-- `hs_hid_get_feature_report`.  `reply` is what `IOHIDDeviceGetReport` does:
`none` when it fails, `some bytes` when it stores `bytes` at `buf + 1` and
their number in `len`. -/
def hs_hid_get_feature_report (E : hs_error_values) (port : _hs_hid_darwin)
    (report_id : Nat) (buf : List Nat) (size : Nat) (reply : Option (List Nat)) : io_return :=
  if port.device_removed then { ret := hs_error E .Io, buf := buf, port := port }
  else
    let len := size - 1
    let port :=
      { port with hid_ref := port.hid_ref ++ [.get_report .Feature report_id len] }
    match reply with
    | none => { ret := hs_error E .Io, buf := buf, port := port }
    | some bytes =>
        let len := bytes.length
        { ret := (len : Int)
          buf := report_id :: memcpy buf.tail bytes len
          port := port }

/-! ## Reachable port states -/

/-- The port states reachable from a freshly opened port by input-report
callbacks, removal callbacks, reads, writes and feature-report transfers.
`report` and `removal` are whole callbacks; `report_locked` and
`removal_locked` are their critical sections alone, which leave the port in
the state that other threads can see before the callback has written its wake
byte, and `fire` is a wake byte being written.  The relation does not record
which callback still owes its byte, so it contains every state the program
reaches and possibly more; it serves to state invariants. -/
inductive Reachable (E : hs_error_values) : _hs_hid_darwin → Prop
  | opened (env : open_env) (mode_read : Bool) (sched : List handshake_event)
      (port : _hs_hid_darwin) :
      open_hid_device E env mode_read sched = some (.opened port) → Reachable E port
  | report (port : _hs_hid_darwin) (report_type : IOHIDReportType) (report_id : Nat)
      (report_data : List Nat) (calloc_ok : Bool) :
      Reachable E port →
      Reachable E (hid_report_callback E port report_type report_id report_data calloc_ok)
  | removal (port : _hs_hid_darwin) :
      Reachable E port → Reachable E (hid_removal_callback port)
  | report_locked (port : _hs_hid_darwin) (report_type : IOHIDReportType) (report_id : Nat)
      (report_data : List Nat) (calloc_ok : Bool) :
      Reachable E port →
      Reachable E
        (hid_report_callback_locked E port report_type report_id report_data calloc_ok).1
  | removal_locked (port : _hs_hid_darwin) :
      Reachable E port → Reachable E (hid_removal_callback_locked port)
  | fire (port : _hs_hid_darwin) :
      Reachable E port → Reachable E (fire_device_event port)
  | read (port : _hs_hid_darwin) (buf : List Nat) (size : Nat) (timeout : Int)
      (env : List wait_event) (res : read_return) :
      Reachable E port → hs_hid_read E port buf size timeout env = some res →
      Reachable E res.port
  | send (port : _hs_hid_darwin) (type : IOHIDReportType) (buf : List Nat) (size : Nat)
      (kret_ok : Bool) :
      Reachable E port → Reachable E (send_report E port type buf size kret_ok).port
  | get_feature (port : _hs_hid_darwin) (report_id : Nat) (buf : List Nat) (size : Nat)
      (reply : Option (List Nat)) :
      Reachable E port →
      Reachable E (hs_hid_get_feature_report E port report_id buf size reply).port

/-- A frame of a port whose reports have at most `read_size` payload bytes:
the buffer has `read_size + 1` bytes and the valid part fits in it. -/
def frame_ok (read_size : Nat) (f : hid_report) : Prop :=
  f.data.length = read_size + 1 ∧ f.size ≤ read_size + 1

/-- The invariant of the report queue: every allocated frame is either queued
or free, at most 64 frames are allocated, and every frame is well formed. -/
def port_inv (port : _hs_hid_darwin) : Prop :=
  port.allocated_reports = port.reports.length + port.free_reports.length ∧
  port.allocated_reports ≤ 64 ∧
  (∀ f ∈ port.reports, frame_ok port.read_size f) ∧
  (∀ f ∈ port.free_reports, frame_ok port.read_size f)

/-- The port `q` has the handles and synchronisation objects of `p`: the
service, the device, the mutex, the condition variable, the run loop and the
shutdown source. -/
def same_handles (p q : _hs_hid_darwin) : Prop :=
  q.service = p.service ∧ q.hid_ref_valid = p.hid_ref_valid ∧ q.mutex_init = p.mutex_init ∧
  q.cond_init = p.cond_init ∧ q.thread_loop = p.thread_loop ∧
  q.shutdown_source = p.shutdown_source

/-- The system calls of `open_hid_device` succeed up to and including
`pthread_create`, so an open in read mode reaches the handshake with the
reader thread. -/
def reaches_handshake (env : open_env) : Prop :=
  env.calloc_ok = true ∧ env.service_found = true ∧ env.hid_ref_created = true ∧
  env.device_opened = true ∧ env.max_input_report_size.isSome = true ∧
  env.read_buf_ok = true ∧ ¬ env.pipe_r < 0 ∧ ¬ env.mutex_init_r < 0 ∧
  ¬ env.cond_init_r < 0 ∧ env.pthread_create_r = 0

instance (env : open_env) : Decidable (reaches_handshake env) := by
  unfold reaches_handshake
  infer_instance

/-- The port on which the opener waits for the reader thread (line 305). -/
def handshake_port (env : open_env) : _hs_hid_darwin :=
  { calloc_port with
      service := true, hid_ref_valid := true,
      read_size := env.max_input_report_size.getD 0, mutex_init := true, cond_init := true }

/-! ## Concrete ports used to evaluate the model -/

/-- An environment in which every system call of `open_hid_device` succeeds,
for a device whose input reports have at most 4 bytes. -/
def sample_env : open_env :=
  { calloc_ok := true, service_found := true, hid_ref_created := true, device_opened := true,
    max_input_report_size := some 4, read_buf_ok := true, pipe_r := 0, mutex_init_r := 0,
    cond_init_r := 0, pthread_create_r := 0 }

/-- The port that `open_hid_device` returns in `sample_env`. -/
def sample_port : _hs_hid_darwin :=
  { calloc_port with
      service := true, hid_ref_valid := true,
      read_size := 4, mutex_init := true, cond_init := true, thread_loop := true,
      shutdown_source := true }

/-- The port after `n` input reports with payloads `[0]`, ..., `[n - 1]` were
delivered to `port`, every allocation succeeding. -/
def deliver_reports (port : _hs_hid_darwin) (n : Nat) : _hs_hid_darwin :=
  (List.range n).foldl
    (fun p i => hid_report_callback sample_errors p .Input 1 [i] true) port

/-- The sample port with 64 frames queued. -/
def full_port : _hs_hid_darwin := deliver_reports sample_port 64

/-- The sample port after two input reports were delivered whose frame
allocation failed. -/
def nomem_port : _hs_hid_darwin :=
  hid_report_callback sample_errors
    (hid_report_callback sample_errors sample_port .Input 1 [9] false) .Input 1 [9] false

/-- The sample port with one stale byte in the wake pipe. -/
def stale_port : _hs_hid_darwin := { sample_port with poll_pipe := 1 }

/-- The sample port as other threads see it when `hid_report_callback` has
queued a first report and released the mutex, and has not yet written the
wake byte. -/
def window_port : _hs_hid_darwin :=
  (hid_report_callback_locked sample_errors sample_port .Input 1 [5] true).1

end HidDarwin

/-! # The board selection of the command-line tool (`src/tyc/main.c`) -/

namespace Tyc

/-- `ty_monitor_event`, the four events a monitor delivers to its callbacks. -/
inductive ty_monitor_event
  | ADDED
  | CHANGED
  | DISAPPEARED
  | DROPPED
  deriving DecidableEq, Repr

/-- The globals `board_tag` and `main_board` of `main.c`, with the record of
the reference operations the tool has performed.  A board is identified by
its address; `acquired` lists the boards passed to `ty_board_ref` and
`released` those passed to `ty_board_unref`, oldest first. -/
structure cli_state where
  board_tag : Option String
  main_board : Option Nat
  acquired : List Nat
  released : List Nat
  deriving DecidableEq, Repr

/-- Modelled from the spec: `ty_board_ref` (defined in `libty`, not among the
sources) is the Registry's `acquire`; it takes one reference on the board and
returns the board. -/
def ty_board_ref (st : cli_state) (board : Nat) : cli_state × Nat :=
  ({ st with acquired := st.acquired ++ [board] }, board)

/-- Modelled from the spec: `ty_board_unref` (defined in `libty`, not among the
sources) is the Registry's `release`; it gives one reference on the board
back. -/
def ty_board_unref (st : cli_state) (board : Nat) : cli_state :=
  { st with released := st.released ++ [board] }

/-- `board_callback`.  `ty_board_matches_tag` is defined in `libty`, not among
the sources, and is a parameter. -/
def board_callback (ty_board_matches_tag : Nat → Option String → Bool) (st : cli_state)
    (board : Nat) (event : ty_monitor_event) : cli_state × Int :=
  match event with
  | .ADDED =>
      if st.main_board = none ∧ ty_board_matches_tag board st.board_tag = true then
        let r := ty_board_ref st board
        ({ r.1 with main_board := some r.2 }, 0)
      else (st, 0)
  | .CHANGED => (st, 0)
  | .DISAPPEARED => (st, 0)
  | .DROPPED =>
      if st.main_board = some board then
        ({ ty_board_unref st board with main_board := none }, 0)
      else (st, 0)

/-- The state of the tool before any event: the tag given on the command
line (if any), no board selected and no reference taken. -/
def initial_state (board_tag : Option String) : cli_state :=
  { board_tag := board_tag, main_board := none, acquired := [], released := [] }

/-- The state after the monitor delivered the given events, oldest first, to
`board_callback`. -/
def deliver_events (ty_board_matches_tag : Nat → Option String → Bool) :
    cli_state → List (Nat × ty_monitor_event) → cli_state
  | st, [] => st
  | st, (board, event) :: evs =>
      deliver_events ty_board_matches_tag
        (board_callback ty_board_matches_tag st board event).1 evs

/-- The number of references on `board` that the tool holds: those it
acquired and has not released. -/
def held_references (st : cli_state) (board : Nat) : Int :=
  (st.acquired.count board : Int) - (st.released.count board : Int)

/-- The reference ledger agrees with `main_board`: the tool holds one
reference on the selected board and none on any other board. -/
def ledger_ok (st : cli_state) : Prop :=
  (∀ b, st.acquired.count b = st.released.count b + (if st.main_board = some b then 1 else 0)) ∧
  st.acquired.length = st.released.length + (if st.main_board = none then 0 else 1)

end Tyc

namespace HidDarwin

/-! ## Lemmas on the callbacks -/

/-- A report that is not an input report is ignored. -/
theorem report_locked_other (E : hs_error_values) (port : _hs_hid_darwin)
    (report_type : IOHIDReportType) (report_id : Nat) (report_data : List Nat)
    (calloc_ok : Bool) (ht : report_type ≠ IOHIDReportType.Input) :
    hid_report_callback_locked E port report_type report_id report_data calloc_ok
      = (port, false) := by
  unfold hid_report_callback_locked
  rw [if_pos ht]

/-- The critical section when a frame can be taken from the free list. -/
theorem report_locked_reuse (E : hs_error_values) (port : _hs_hid_darwin)
    (report_id : Nat) (report_data : List Nat) (calloc_ok : Bool)
    (report : hid_report) (free : List hid_report) (hfree : port.free_reports = report :: free) :
    hid_report_callback_locked E port .Input report_id report_data calloc_ok =
      ({ port with
          free_reports := free
          reports := port.reports ++ [fill_report port.read_size report report_id report_data] },
        port.reports.isEmpty) := by
  have hnot : ¬ ((0 : Int) < 0) := by decide
  unfold hid_report_callback_locked
  simp only [ne_eq, not_true_eq_false, if_false, hfree, hnot]

/-- The critical section when the free list is empty and 64 frames are
allocated: the report is dropped. -/
theorem report_locked_full (E : hs_error_values) (port : _hs_hid_darwin)
    (report_id : Nat) (report_data : List Nat) (calloc_ok : Bool)
    (hfree : port.free_reports = []) (h64 : port.allocated_reports = 64) :
    hid_report_callback_locked E port .Input report_id report_data calloc_ok
      = (port, port.reports.isEmpty) := by
  have hnot : ¬ ((0 : Int) < 0) := by decide
  unfold hid_report_callback_locked
  simp only [ne_eq, not_true_eq_false, if_false, hfree, h64, if_true, hnot]

/-- The critical section when a new frame is needed and `calloc` fails. -/
theorem report_locked_nomem (E : hs_error_values) (port : _hs_hid_darwin)
    (report_id : Nat) (report_data : List Nat)
    (hfree : port.free_reports = []) (h64 : port.allocated_reports ≠ 64) :
    hid_report_callback_locked E port .Input report_id report_data false
      = ({ port with thread_ret := hs_error E .Memory }, port.reports.isEmpty) := by
  have hneg : hs_error E .Memory < 0 := E.code_neg _
  unfold hid_report_callback_locked
  simp only [ne_eq, not_true_eq_false, if_false, hfree, h64, Bool.not_false, if_true, hneg]

/-- The critical section when a new frame is needed and `calloc` succeeds. -/
theorem report_locked_alloc (E : hs_error_values) (port : _hs_hid_darwin)
    (report_id : Nat) (report_data : List Nat)
    (hfree : port.free_reports = []) (h64 : port.allocated_reports ≠ 64) :
    hid_report_callback_locked E port .Input report_id report_data true =
      ({ port with
          allocated_reports := (port.allocated_reports + 1) % 2 ^ 32
          reports := port.reports ++
            [fill_report port.read_size (calloc_report port) report_id report_data] },
        port.reports.isEmpty) := by
  have hnot : ¬ ((0 : Int) < 0) := by decide
  unfold hid_report_callback_locked
  simp only [ne_eq, not_true_eq_false, if_false, hfree, h64, Bool.not_true, Bool.false_eq_true,
    hnot]

/-! ## Lemmas on the invariant -/

theorem frame_ok_fill (read_size : Nat) (report : hid_report) (report_id : Nat)
    (report_data : List Nat) (h : report.data.length = read_size + 1) :
    frame_ok read_size (fill_report read_size report report_id report_data) := by
  unfold frame_ok fill_report memcpy
  simp only [List.length_cons, List.length_append, List.length_take, List.length_drop,
    List.length_tail, h]
  split <;> omega

theorem port_inv_fire (port : _hs_hid_darwin) (h : port_inv port) :
    port_inv (fire_device_event port) := h

theorem port_inv_report_locked (E : hs_error_values) (port : _hs_hid_darwin)
    (report_type : IOHIDReportType) (report_id : Nat) (report_data : List Nat)
    (calloc_ok : Bool) (h : port_inv port) :
    port_inv
      (hid_report_callback_locked E port report_type report_id report_data calloc_ok).1 := by
  obtain ⟨h1, h2, h4, h5⟩ := id h
  by_cases ht : report_type = IOHIDReportType.Input
  swap
  · rw [report_locked_other E port report_type report_id report_data calloc_ok ht]
    exact h
  subst ht
  cases hfree : port.free_reports with
  | cons report free =>
    rw [report_locked_reuse E port report_id report_data calloc_ok report free hfree]
    rw [hfree] at h1 h5
    have hr : frame_ok port.read_size report := h5 report (List.mem_cons_self _ _)
    have hfill := frame_ok_fill port.read_size report report_id report_data hr.1
    simp only [List.length_cons] at h1
    refine ⟨?_, h2, ?_, ?_⟩
    · show port.allocated_reports = (port.reports ++ [_]).length + free.length
      simp only [List.length_append, List.length_singleton]
      omega
    · intro f hf
      rcases List.mem_append.mp hf with hf | hf
      · exact h4 f hf
      · rw [List.mem_singleton] at hf
        rw [hf]; exact hfill
    · intro f hf
      exact h5 f (List.mem_cons_of_mem _ hf)
  | nil =>
    by_cases h64 : port.allocated_reports = 64
    · rw [report_locked_full E port report_id report_data calloc_ok hfree h64]
      exact h
    · cases calloc_ok with
      | false =>
        rw [report_locked_nomem E port report_id report_data hfree h64]
        exact h
      | true =>
        rw [report_locked_alloc E port report_id report_data hfree h64]
        rw [hfree] at h1
        simp only [List.length_nil, Nat.add_zero] at h1
        have hfill := frame_ok_fill port.read_size (calloc_report port) report_id report_data
          (by simp [calloc_report])
        have hmod : (port.allocated_reports + 1) % 2 ^ 32 = port.allocated_reports + 1 :=
          Nat.mod_eq_of_lt (by omega)
        refine ⟨?_, ?_, ?_, ?_⟩
        · show (port.allocated_reports + 1) % 2 ^ 32
            = (port.reports ++ [_]).length + port.free_reports.length
          rw [hmod, hfree]
          simp only [List.length_append, List.length_singleton, List.length_nil]
          omega
        · show (port.allocated_reports + 1) % 2 ^ 32 ≤ 64
          rw [hmod]
          omega
        · intro f hf
          rcases List.mem_append.mp hf with hf | hf
          · exact h4 f hf
          · rw [List.mem_singleton] at hf
            rw [hf]; exact hfill
        · exact h5

theorem port_inv_report_callback (E : hs_error_values) (port : _hs_hid_darwin)
    (report_type : IOHIDReportType) (report_id : Nat) (report_data : List Nat)
    (calloc_ok : Bool) (h : port_inv port) :
    port_inv (hid_report_callback E port report_type report_id report_data calloc_ok) := by
  have hl := port_inv_report_locked E port report_type report_id report_data calloc_ok h
  unfold hid_report_callback
  simp only
  split
  · exact port_inv_fire _ hl
  · exact hl

theorem port_inv_removal_locked (port : _hs_hid_darwin) (h : port_inv port) :
    port_inv (hid_removal_callback_locked port) := h

theorem port_inv_removal_callback (port : _hs_hid_darwin) (h : port_inv port) :
    port_inv (hid_removal_callback port) := h

theorem port_inv_read_locked (port : _hs_hid_darwin) (buf : List Nat) (size polls : Nat)
    (h : port_inv port) : port_inv (hs_hid_read_locked port buf size polls).port := by
  obtain ⟨h1, h2, h4, h5⟩ := h
  unfold hs_hid_read_locked
  by_cases hneg : port.thread_ret < 0
  · simp only [hneg, if_true]
    cases hq : port.reports with
    | nil =>
      rw [hq] at h1
      simp only [List.isEmpty_nil, if_true, reset_device_event, port_inv, hq]
      exact ⟨h1, h2, by simp, h5⟩
    | cons q qs =>
      rw [hq] at h1 h4
      simp only [List.isEmpty_cons, Bool.false_eq_true, if_false, port_inv, hq]
      exact ⟨h1, h2, h4, h5⟩
  · simp only [hneg, if_false]
    cases hq : port.reports with
    | nil =>
      rw [hq] at h1 h4
      simp only [port_inv, hq]
      exact ⟨h1, h2, h4, h5⟩
    | cons q qs =>
      rw [hq] at h1 h4
      have hq_ok : frame_ok port.read_size q := h4 q (List.mem_cons_self _ _)
      have hfree : ∀ f ∈ q :: port.free_reports, frame_ok port.read_size f := by
        intro f hf
        rcases List.mem_cons.mp hf with hf | hf
        · rw [hf]; exact hq_ok
        · exact h5 f hf
      have hrest : ∀ f ∈ qs, frame_ok port.read_size f :=
        fun f hf => h4 f (List.mem_cons_of_mem _ hf)
      simp only [List.length_cons] at h1
      cases hqs : qs with
      | nil =>
        rw [hqs] at h1
        simp only [List.isEmpty_nil, if_true, reset_device_event, port_inv, List.length_cons,
          List.length_nil]
        simp only [List.length_nil] at h1
        exact ⟨by omega, h2, by simp, hfree⟩
      | cons r rs =>
        rw [hqs] at h1 hrest
        simp only [List.isEmpty_cons, Bool.false_eq_true, if_false, port_inv, List.length_cons]
        simp only [List.length_cons] at h1
        exact ⟨by omega, h2, hrest, hfree⟩

theorem port_inv_poll_wait (E : hs_error_values) (timeout : Int) (env : List wait_event) :
    ∀ (port : _hs_hid_darwin) (polls : Nat), port_inv port →
      match poll_wait E timeout port polls env with
      | .ready p _ => port_inv p
      | .timed_out p _ => port_inv p
      | .poll_failed p _ => port_inv p
      | .blocked => True := by
  induction env with
  | nil =>
    intro port polls h
    unfold poll_wait
    split_ifs <;> simp [h]
  | cons e es ih =>
    intro port polls h
    unfold poll_wait
    split_ifs
    · simpa using h
    · cases e with
      | input_report report_type report_id report_data calloc_ok =>
        exact ih _ polls (port_inv_report_callback E port _ _ _ _ h)
      | removal => exact ih _ polls (port_inv_removal_callback port h)
      | eintr => exact ih port (polls + 1) h
      | poll_failure => simpa using h
      | input_report_locked report_type report_id report_data calloc_ok =>
        exact ih _ polls (port_inv_report_locked E port _ _ _ _ h)
      | removal_locked => exact ih _ polls (port_inv_removal_locked port h)
      | fire => exact ih _ polls (port_inv_fire port h)

theorem port_inv_read (E : hs_error_values) (port : _hs_hid_darwin) (buf : List Nat)
    (size : Nat) (timeout : Int) (env : List wait_event) (res : read_return)
    (h : port_inv port) (hres : hs_hid_read E port buf size timeout env = some res) :
    port_inv res.port := by
  unfold hs_hid_read at hres
  split_ifs at hres with hrem ht
  · cases hres; exact h
  · have hw := port_inv_poll_wait E timeout env port 1 h
    cases hpw : poll_wait E timeout port 1 env with
    | ready p n =>
      rw [hpw] at hw hres
      cases hres
      exact port_inv_read_locked p buf size n hw
    | timed_out p n => rw [hpw] at hw hres; cases hres; exact hw
    | poll_failed p n => rw [hpw] at hw hres; cases hres; exact hw
    | blocked => rw [hpw] at hres; cases hres
  · cases hres
    exact port_inv_read_locked port buf size 0 h

theorem port_inv_run_callback (E : hs_error_values) (port : _hs_hid_darwin)
    (c : callback_event) (h : port_inv port) : port_inv (run_callback E port c) := by
  cases c with
  | input_report report_type report_id report_data calloc_ok =>
    exact port_inv_report_callback E port _ _ _ _ h
  | removal => exact port_inv_removal_callback port h

theorem port_inv_hid_read_thread (E : hs_error_values) (port : _hs_hid_darwin)
    (source_created : Bool) (h : port_inv port) :
    port_inv (hid_read_thread E port source_created) := by
  cases source_created <;> exact h

/-- The handshake keeps the queue invariant, whatever is delivered while the
opener sleeps. -/
theorem port_inv_handshake_sleep (E : hs_error_values) (sched : List handshake_event) :
    ∀ (port q : _hs_hid_darwin), port_inv port → handshake_sleep E port sched = some q →
      port_inv q := by
  induction sched with
  | nil =>
    intro port q _ h
    simp [handshake_sleep] at h
  | cons e es ih =>
    intro port q hinv h
    cases e with
    | wakeup =>
      rw [handshake_sleep] at h
      split_ifs at h
      · cases h; exact hinv
      · exact ih port q hinv h
    | reader_runs source_created =>
      rw [handshake_sleep] at h
      exact ih _ q (port_inv_hid_read_thread E port source_created hinv) h
    | callback c =>
      rw [handshake_sleep] at h
      exact ih _ q (port_inv_run_callback E port c hinv) h

theorem port_inv_handshake_wait (E : hs_error_values) (sched : List handshake_event)
    (port q : _hs_hid_darwin) (hinv : port_inv port)
    (h : handshake_wait E port sched = some q) : port_inv q := by
  unfold handshake_wait at h
  split_ifs at h
  · cases h; exact hinv
  · exact port_inv_handshake_sleep E sched port q hinv h

/-- A port returned by `open_hid_device` is the freshly allocated one (opened
without the read mode), or the one the opener found when it left the
handshake, with `thread_ret` reset. -/
theorem open_hid_device_opened (E : hs_error_values) (env : open_env) (mode_read : Bool)
    (sched : List handshake_event) (port : _hs_hid_darwin)
    (h : open_hid_device E env mode_read sched = some (.opened port)) :
    (mode_read = false ∧
      port = { calloc_port with service := true, hid_ref_valid := true }) ∨
    ∃ n q, handshake_wait E
      { calloc_port with
        service := true, hid_ref_valid := true, read_size := n, mutex_init := true,
        cond_init := true } sched = some q ∧
      port = { q with thread_ret := 0 } := by
  unfold open_hid_device at h
  cases h1 : env.calloc_ok <;> simp only [h1, Bool.not_false, Bool.not_true, if_true,
    Bool.false_eq_true, if_false] at h
  · cases h
  cases h2 : env.service_found <;> simp only [h2, Bool.not_false, Bool.not_true, if_true,
    Bool.false_eq_true, if_false] at h
  · cases h
  cases h3 : env.hid_ref_created <;> simp only [h3, Bool.not_false, Bool.not_true, if_true,
    Bool.false_eq_true, if_false] at h
  · cases h
  cases h4 : env.device_opened <;> simp only [h4, Bool.not_false, Bool.not_true, if_true,
    Bool.false_eq_true, if_false] at h
  · cases h
  cases mode_read
  · simp only [Bool.false_eq_true, if_false, Option.some.injEq,
      open_return.opened.injEq] at h
    exact Or.inl ⟨rfl, h.symm⟩
  simp only [if_true] at h
  cases h5 : env.max_input_report_size with
  | none => rw [h5] at h; cases h
  | some n =>
    rw [h5] at h
    simp only at h
    cases h6 : env.read_buf_ok <;> simp only [h6, Bool.not_false, Bool.not_true, if_true,
      Bool.false_eq_true, if_false] at h
    · cases h
    by_cases h7 : env.pipe_r < 0
    · rw [if_pos h7] at h; cases h
    rw [if_neg h7] at h
    by_cases h8 : env.mutex_init_r < 0
    · rw [if_pos h8] at h; cases h
    rw [if_neg h8] at h
    by_cases h9 : env.cond_init_r < 0
    · rw [if_pos h9] at h; cases h
    rw [if_neg h9] at h
    by_cases h10 : env.pthread_create_r ≠ 0
    · rw [if_pos h10] at h; cases h
    rw [if_neg h10] at h
    cases hw : handshake_wait E
        { calloc_port with
          service := true, hid_ref_valid := true, read_size := n, mutex_init := true,
          cond_init := true } sched with
    | none => rw [hw] at h; cases h
    | some q =>
      rw [hw] at h
      simp only at h
      by_cases h11 : q.thread_ret < 0
      · rw [if_pos h11] at h; cases h
      rw [if_neg h11] at h
      simp only [Option.some.injEq, open_return.opened.injEq] at h
      exact Or.inr ⟨n, q, hw, h.symm⟩

theorem port_inv_open (E : hs_error_values) (env : open_env) (mode_read : Bool)
    (sched : List handshake_event) (port : _hs_hid_darwin)
    (h : open_hid_device E env mode_read sched = some (.opened port)) : port_inv port := by
  have hcalloc : ∀ p : _hs_hid_darwin, p.reports = [] → p.free_reports = [] →
      p.allocated_reports = 0 → port_inv p := by
    intro p hr hf ha
    unfold port_inv
    rw [hr, hf, ha]
    simp
  rcases open_hid_device_opened E env mode_read sched port h with ⟨_, hp⟩ | ⟨n, q, hw, hp⟩
  · rw [hp]
    exact hcalloc _ rfl rfl rfl
  · have hq := port_inv_handshake_wait E sched _ q (hcalloc _ rfl rfl rfl) hw
    rw [hp]
    exact hq

theorem port_inv_send_report (E : hs_error_values) (port : _hs_hid_darwin)
    (type : IOHIDReportType) (buf : List Nat) (size : Nat) (kret_ok : Bool)
    (h : port_inv port) : port_inv (send_report E port type buf size kret_ok).port := by
  unfold send_report
  split_ifs <;> exact h

theorem port_inv_get_feature_report (E : hs_error_values) (port : _hs_hid_darwin)
    (report_id : Nat) (buf : List Nat) (size : Nat) (reply : Option (List Nat))
    (h : port_inv port) :
    port_inv (hs_hid_get_feature_report E port report_id buf size reply).port := by
  unfold hs_hid_get_feature_report
  split_ifs
  · exact h
  · cases reply <;> exact h

/-- Every reachable port state satisfies the queue invariant. -/
theorem reachable_port_inv (E : hs_error_values) (port : _hs_hid_darwin)
    (h : Reachable E port) : port_inv port := by
  induction h with
  | opened env mode_read sched port ho => exact port_inv_open E env mode_read sched port ho
  | report port report_type report_id report_data calloc_ok _ ih =>
    exact port_inv_report_callback E port _ _ _ _ ih
  | removal port _ ih => exact port_inv_removal_callback port ih
  | report_locked port report_type report_id report_data calloc_ok _ ih =>
    exact port_inv_report_locked E port _ _ _ _ ih
  | removal_locked port _ ih => exact port_inv_removal_locked port ih
  | fire port _ ih => exact port_inv_fire port ih
  | read port buf size timeout env res _ hres ih =>
    exact port_inv_read E port buf size timeout env res ih hres
  | send port type buf size kret_ok _ ih =>
    exact port_inv_send_report E port type buf size kret_ok ih
  | get_feature port report_id buf size reply _ ih =>
    exact port_inv_get_feature_report E port report_id buf size reply ih

/-- When the wake pipe holds a byte, `poll` returns at once. -/
theorem poll_wait_ready (E : hs_error_values) (timeout : Int) (port : _hs_hid_darwin)
    (polls : Nat) (env : List wait_event) (h : 0 < port.poll_pipe) :
    poll_wait E timeout port polls env = .ready port polls := by
  cases env <;> simp [poll_wait, h]

/-- A read that does not find the removed flag set and is given a timeout
goes through `poll`. -/
theorem hs_hid_read_waits (E : hs_error_values) (port : _hs_hid_darwin) (buf : List Nat)
    (size : Nat) (timeout : Int) (env : List wait_event)
    (hrem : port.device_removed = false) (ht : timeout ≠ 0) :
    hs_hid_read E port buf size timeout env =
      match poll_wait E timeout port 1 env with
      | .ready port polls => some (hs_hid_read_locked port buf size polls)
      | .timed_out port polls => some { ret := 0, buf := buf, port := port, polls := polls }
      | .poll_failed port polls =>
          some { ret := hs_error E .System, buf := buf, port := port, polls := polls }
      | .blocked => none := by
  unfold hs_hid_read
  rw [hrem]
  simp only [Bool.false_eq_true, if_false, ne_eq, ht, not_false_eq_true, if_true]

/-- A read of a port whose removed flag is set returns `Io` at once. -/
theorem hs_hid_read_removed (E : hs_error_values) (port : _hs_hid_darwin) (buf : List Nat)
    (size : Nat) (timeout : Int) (env : List wait_event)
    (hrem : port.device_removed = true) :
    hs_hid_read E port buf size timeout env =
      some { ret := hs_error E .Io, buf := buf, port := port, polls := 0 } := by
  unfold hs_hid_read
  rw [hrem]
  simp only [if_true]

/-- The callback when a frame can be taken from the free list. -/
theorem report_callback_reuse (E : hs_error_values) (port : _hs_hid_darwin)
    (report_id : Nat) (report_data : List Nat) (calloc_ok : Bool)
    (report : hid_report) (free : List hid_report) (hfree : port.free_reports = report :: free) :
    hid_report_callback E port .Input report_id report_data calloc_ok =
      if port.reports.isEmpty then
        fire_device_event { port with
          free_reports := free
          reports := port.reports ++ [fill_report port.read_size report report_id report_data] }
      else
        { port with
          free_reports := free
          reports := port.reports ++ [fill_report port.read_size report report_id report_data] } := by
  unfold hid_report_callback
  rw [report_locked_reuse E port report_id report_data calloc_ok report free hfree]

/-- The callback when the free list is empty and 64 frames are allocated: the
report is dropped. -/
theorem report_callback_full (E : hs_error_values) (port : _hs_hid_darwin)
    (report_id : Nat) (report_data : List Nat) (calloc_ok : Bool)
    (hfree : port.free_reports = []) (h64 : port.allocated_reports = 64) :
    hid_report_callback E port .Input report_id report_data calloc_ok =
      if port.reports.isEmpty then fire_device_event port else port := by
  unfold hid_report_callback
  rw [report_locked_full E port report_id report_data calloc_ok hfree h64]

/-- The callback when a new frame is needed and `calloc` fails. -/
theorem report_callback_nomem (E : hs_error_values) (port : _hs_hid_darwin)
    (report_id : Nat) (report_data : List Nat)
    (hfree : port.free_reports = []) (h64 : port.allocated_reports ≠ 64) :
    hid_report_callback E port .Input report_id report_data false =
      if port.reports.isEmpty then
        fire_device_event { port with thread_ret := hs_error E .Memory }
      else { port with thread_ret := hs_error E .Memory } := by
  unfold hid_report_callback
  rw [report_locked_nomem E port report_id report_data hfree h64]

/-- The callback when a new frame is needed and `calloc` succeeds. -/
theorem report_callback_alloc (E : hs_error_values) (port : _hs_hid_darwin)
    (report_id : Nat) (report_data : List Nat)
    (hfree : port.free_reports = []) (h64 : port.allocated_reports ≠ 64) :
    hid_report_callback E port .Input report_id report_data true =
      if port.reports.isEmpty then
        fire_device_event { port with
          allocated_reports := (port.allocated_reports + 1) % 2 ^ 32
          reports := port.reports ++
            [fill_report port.read_size (calloc_report port) report_id report_data] }
      else
        { port with
          allocated_reports := (port.allocated_reports + 1) % 2 ^ 32
          reports := port.reports ++
            [fill_report port.read_size (calloc_report port) report_id report_data] } := by
  unfold hid_report_callback
  rw [report_locked_alloc E port report_id report_data hfree h64]

/-- The valid bytes of a frame written by the callback: the report id, then
the payload clamped to `read_size` bytes. -/
theorem fill_report_bytes (read_size : Nat) (report : hid_report) (report_id : Nat)
    (report_data : List Nat) :
    (fill_report read_size report report_id report_data).size
        = min report_data.length read_size + 1 ∧
    (fill_report read_size report report_id report_data).data.take
        (fill_report read_size report report_id report_data).size
      = (report_id % 256) :: report_data.take (min report_data.length read_size) := by
  have hmin : (if report_data.length > read_size then read_size else report_data.length)
      = min report_data.length read_size := by
    split <;> omega
  unfold fill_report memcpy
  simp only [hmin, List.take_succ_cons, true_and]
  congr 1
  rw [List.take_append_of_le_length]
  · rw [List.take_take]; simp
  · rw [List.length_take]; omega

/-- The locked section of a read when a reader error is pending. -/
theorem read_locked_error (port : _hs_hid_darwin) (buf : List Nat) (size polls : Nat)
    (h : port.thread_ret < 0) :
    hs_hid_read_locked port buf size polls =
      { ret := port.thread_ret, buf := buf, polls := polls
        port := if port.reports.isEmpty then reset_device_event { port with thread_ret := 0 }
                else { port with thread_ret := 0 } } := by
  unfold hs_hid_read_locked
  rw [if_pos h]

/-- The locked section of a read when nothing is pending. -/
theorem read_locked_empty (port : _hs_hid_darwin) (buf : List Nat) (size polls : Nat)
    (h : 0 ≤ port.thread_ret) (hq : port.reports = []) :
    hs_hid_read_locked port buf size polls =
      { ret := 0, buf := buf, port := port, polls := polls } := by
  unfold hs_hid_read_locked
  rw [if_neg (not_lt.mpr h), hq]

/-- The locked section of a read when a frame is queued and no error is
pending. -/
theorem read_locked_frame (port : _hs_hid_darwin) (buf : List Nat) (size polls : Nat)
    (f : hid_report) (q : List hid_report)
    (h : 0 ≤ port.thread_ret) (hq : port.reports = f :: q) :
    hs_hid_read_locked port buf size polls =
      { ret := (min size f.size : Nat), buf := memcpy buf f.data (min size f.size), polls := polls
        port :=
          if q.isEmpty then
            reset_device_event { port with reports := q, free_reports := f :: port.free_reports }
          else { port with reports := q, free_reports := f :: port.free_reports } } := by
  have hmin : (if size > f.size then f.size else size) = min size f.size := by
    split <;> omega
  unfold hs_hid_read_locked
  rw [if_neg (not_lt.mpr h), hq]
  simp only [hmin]

/-- The locked section of a read touches neither the removed flag nor the
requests handed to the device, and reports the given number of polls. -/
theorem read_locked_frame_fields (port : _hs_hid_darwin) (buf : List Nat) (size polls : Nat) :
    (hs_hid_read_locked port buf size polls).port.device_removed = port.device_removed ∧
    (hs_hid_read_locked port buf size polls).port.hid_ref = port.hid_ref ∧
    (hs_hid_read_locked port buf size polls).polls = polls := by
  by_cases h : port.thread_ret < 0
  · rw [read_locked_error port buf size polls h]
    cases port.reports <;> exact ⟨rfl, rfl, rfl⟩
  · have h0 : 0 ≤ port.thread_ret := not_lt.mp h
    cases hq : port.reports with
    | nil => rw [read_locked_empty port buf size polls h0 hq]; exact ⟨rfl, rfl, rfl⟩
    | cons f q =>
      rw [read_locked_frame port buf size polls f q h0 hq]
      cases q <;> exact ⟨rfl, rfl, rfl⟩

/-! ## C1: removal during a blocked read -/

/-- C2: on a port that is not removed, has no pending reader error and has an
empty queue, `hs_hid_read` with timeout 0 does not call `poll`, returns 0 and
leaves the whole port (queue, free list and wake pipe included) and the
buffer unchanged, whatever the environment would do. -/
theorem read_timeout_zero_empty_queue (E : hs_error_values) (port : _hs_hid_darwin)
    (buf : List Nat) (size : Nat) (env : List wait_event)
    (hrem : port.device_removed = false) (herr : 0 ≤ port.thread_ret)
    (hq : port.reports = []) :
    hs_hid_read E port buf size 0 env =
      some { ret := 0, buf := buf, port := port, polls := 0 } := by
  have hneg : ¬ port.thread_ret < 0 := not_lt.mpr herr
  unfold hs_hid_read hs_hid_read_locked
  rw [hrem, if_neg hneg, hq]
  simp

/-- C2 at the freshly opened sample port. -/
theorem read_timeout_zero_empty_queue_witness :
    hs_hid_read sample_errors sample_port [0, 0, 0] 3 0 [.removal, .eintr] =
      some { ret := 0, buf := [0, 0, 0], port := sample_port, polls := 0 } :=
  read_timeout_zero_empty_queue sample_errors sample_port [0, 0, 0] 3 [.removal, .eintr]
    (by decide) (by decide) (by decide)

/-! ## C3: a report is dropped exactly when the queue is full -/

/-- C3: in every reachable port state, an input report delivered to
`hid_report_callback` (allocation succeeding) is dropped exactly when the
queue already holds 64 frames.  A dropped report leaves the whole port
unchanged (the queued frames and their order, and no error is recorded); a
report that is not dropped is appended at the tail of the queue, as the frame
holding its id and its payload clamped to `read_size` bytes. -/
theorem report_dropped_iff_queue_full (E : hs_error_values) (port : _hs_hid_darwin)
    (report_id : Nat) (report_data : List Nat) (h : Reachable E port) :
    (port.reports.length = 64 →
      hid_report_callback E port .Input report_id report_data true = port) ∧
    (port.reports.length ≠ 64 →
      ∃ frame,
        (hid_report_callback E port .Input report_id report_data true).reports
          = port.reports ++ [frame] ∧
        (hid_report_callback E port .Input report_id report_data true).thread_ret
          = port.thread_ret ∧
        frame.size = min report_data.length port.read_size + 1 ∧
        frame.data.take frame.size
          = (report_id % 256) :: report_data.take (min report_data.length port.read_size)) ∧
    ((hid_report_callback E port .Input report_id report_data true).reports = port.reports ↔
      port.reports.length = 64) := by
  obtain ⟨h1, h2, _, _⟩ := reachable_port_inv E port h
  have hfull : port.reports.length = 64 →
      hid_report_callback E port .Input report_id report_data true = port := by
    intro hlen
    have hfree : port.free_reports = [] := List.eq_nil_of_length_eq_zero (by omega)
    have hemp : port.reports.isEmpty = false := by
      cases hq : port.reports with
      | nil => rw [hq] at hlen; cases hlen
      | cons _ _ => rfl
    rw [report_callback_full E port report_id report_data true hfree (by omega), hemp]
    rfl
  have hnot : port.reports.length ≠ 64 →
      ∃ frame,
        (hid_report_callback E port .Input report_id report_data true).reports
          = port.reports ++ [frame] ∧
        (hid_report_callback E port .Input report_id report_data true).thread_ret
          = port.thread_ret ∧
        frame.size = min report_data.length port.read_size + 1 ∧
        frame.data.take frame.size
          = (report_id % 256) :: report_data.take (min report_data.length port.read_size) := by
    intro hlen
    cases hfree : port.free_reports with
    | cons report free =>
      refine ⟨fill_report port.read_size report report_id report_data, ?_, ?_,
        fill_report_bytes _ _ _ _⟩
      · rw [report_callback_reuse E port report_id report_data true report free hfree]
        split <;> rfl
      · rw [report_callback_reuse E port report_id report_data true report free hfree]
        split <;> rfl
    | nil =>
      rw [hfree] at h1
      simp only [List.length_nil, Nat.add_zero] at h1
      have h64 : port.allocated_reports ≠ 64 := by omega
      refine ⟨fill_report port.read_size (calloc_report port) report_id report_data, ?_, ?_,
        fill_report_bytes _ _ _ _⟩
      · rw [report_callback_alloc E port report_id report_data hfree h64]
        split <;> rfl
      · rw [report_callback_alloc E port report_id report_data hfree h64]
        split <;> rfl
  refine ⟨hfull, hnot, ?_, ?_⟩
  · intro heq
    by_contra hlen
    obtain ⟨frame, hf, _⟩ := hnot hlen
    rw [hf] at heq
    have := congrArg List.length heq
    simp at this
  · intro hlen
    rw [hfull hlen]

/-- C3 at the freshly opened sample port, whose queue is empty: the report is
appended. -/
theorem report_dropped_iff_queue_full_witness :
    (sample_port.reports.length = 64 →
      hid_report_callback sample_errors sample_port .Input 1 [7, 8] true = sample_port) ∧
    (sample_port.reports.length ≠ 64 →
      ∃ frame,
        (hid_report_callback sample_errors sample_port .Input 1 [7, 8] true).reports
          = sample_port.reports ++ [frame] ∧
        (hid_report_callback sample_errors sample_port .Input 1 [7, 8] true).thread_ret
          = sample_port.thread_ret ∧
        frame.size = min [7, 8].length sample_port.read_size + 1 ∧
        frame.data.take frame.size
          = (1 % 256) :: [7, 8].take (min [7, 8].length sample_port.read_size)) ∧
    ((hid_report_callback sample_errors sample_port .Input 1 [7, 8] true).reports
        = sample_port.reports ↔
      sample_port.reports.length = 64) :=
  report_dropped_iff_queue_full sample_errors sample_port 1 [7, 8]
    (Reachable.opened sample_env true [.reader_runs true, .wakeup] sample_port (by decide))

/-! ## C4: nothing records a dropped report -/

/-- C4, as stated, fails: the port has no overflow flag.  The sample port with
64 frames queued, reached from the freshly opened port by 64 deliveries none
of which was dropped, is left exactly as it was by the delivery that is
dropped; so no flag read off the port state is clear before the drop and set
after it. -/
theorem c4_drop_leaves_no_trace :
    full_port = deliver_reports sample_port 64 ∧
      full_port.reports.length = 64 ∧
      hid_report_callback sample_errors full_port .Input 7 [1, 2, 3] true = full_port ∧
      ¬ ∃ overflow : _hs_hid_darwin → Bool,
          overflow full_port = false ∧
          overflow (hid_report_callback sample_errors full_port .Input 7 [1, 2, 3] true)
            = true := by
  have hlen : full_port.reports.length = 64 := by
    set_option maxRecDepth 100000 in decide
  have hdrop : hid_report_callback sample_errors full_port .Input 7 [1, 2, 3] true
      = full_port := by
    set_option maxRecDepth 100000 in decide
  refine ⟨rfl, hlen, hdrop, ?_⟩
  rintro ⟨overflow, h0, h1⟩
  rw [hdrop, h0] at h1
  cases h1

/-- C4, amended: when `hid_report_callback` drops an input report because the
queue of a reachable port holds 64 frames, nothing is recorded: the port has
no overflow flag and the drop leaves the whole port state unchanged (queue,
free list, allocation count, pending reader result and wake pipe), whether or
not an allocation would have succeeded; hence every later call, a successful
`hs_hid_read` included, behaves as if the report had never arrived. -/
theorem drop_leaves_port_unchanged (E : hs_error_values) (port : _hs_hid_darwin)
    (report_id : Nat) (report_data : List Nat) (calloc_ok : Bool)
    (h : Reachable E port) (hlen : port.reports.length = 64) :
    hid_report_callback E port .Input report_id report_data calloc_ok = port ∧
    ∀ buf size timeout env,
      hs_hid_read E (hid_report_callback E port .Input report_id report_data calloc_ok)
          buf size timeout env
        = hs_hid_read E port buf size timeout env := by
  obtain ⟨h1, h2, _, _⟩ := reachable_port_inv E port h
  have hfree : port.free_reports = [] := List.eq_nil_of_length_eq_zero (by omega)
  have hemp : port.reports.isEmpty = false := by
    cases hq : port.reports with
    | nil => rw [hq] at hlen; cases hlen
    | cons _ _ => rfl
  have hsame : hid_report_callback E port .Input report_id report_data calloc_ok = port := by
    rw [report_callback_full E port report_id report_data calloc_ok hfree (by omega), hemp]
    rfl
  refine ⟨hsame, ?_⟩
  intro buf size timeout env
  rw [hsame]

/-- Delivering reports keeps a port reachable. -/
theorem reachable_deliver_reports (port : _hs_hid_darwin) (n : Nat)
    (h : Reachable sample_errors port) : Reachable sample_errors (deliver_reports port n) := by
  unfold deliver_reports
  generalize List.range n = l
  induction l generalizing port with
  | nil => exact h
  | cons i l ih =>
    exact ih _ (Reachable.report port .Input 1 [i] true h)

/-- The sample port is a freshly opened port. -/
theorem reachable_sample_port : Reachable sample_errors sample_port :=
  Reachable.opened sample_env true [.reader_runs true, .wakeup] sample_port (by decide)

/-- The amended C4 at the sample port with 64 frames queued, for a delivery
whose allocation would fail. -/
theorem drop_leaves_port_unchanged_witness :
    hid_report_callback sample_errors full_port .Input 7 [1, 2, 3] false = full_port ∧
    ∀ buf size timeout env,
      hs_hid_read sample_errors
          (hid_report_callback sample_errors full_port .Input 7 [1, 2, 3] false)
          buf size timeout env
        = hs_hid_read sample_errors full_port buf size timeout env :=
  drop_leaves_port_unchanged sample_errors full_port 7 [1, 2, 3] false
    (reachable_deliver_reports sample_port 64 reachable_sample_port)
    (by set_option maxRecDepth 100000 in decide)

/-! ## C5: the report id convention of `send_report` -/

/-- C5: on a port that is not removed, for a buffer of `n >= 2` bytes whose
transfer succeeds, `hs_hid_write` and `hs_hid_send_feature_report` return `n`
and hand exactly one request to the device: report id 0 with the `n - 1` bytes
after byte 0 when byte 0 is 0, and report id `buf[0]` with all `n` bytes
otherwise (an output report for a write, a feature report otherwise). -/
theorem send_report_returns_size (E : hs_error_values) (port : _hs_hid_darwin)
    (buf : List Nat) (hrem : port.device_removed = false) (hn : 2 ≤ buf.length) :
    (hs_hid_write E port buf buf.length true).ret = buf.length ∧
    (hs_hid_send_feature_report E port buf buf.length true).ret = buf.length ∧
    (buf.headD 0 = 0 →
      buf.tail.length = buf.length - 1 ∧
      (hs_hid_write E port buf buf.length true).port
        = { port with hid_ref := port.hid_ref ++ [.set_report .Output 0 buf.tail] } ∧
      (hs_hid_send_feature_report E port buf buf.length true).port
        = { port with hid_ref := port.hid_ref ++ [.set_report .Feature 0 buf.tail] }) ∧
    (buf.headD 0 ≠ 0 →
      (hs_hid_write E port buf buf.length true).port
        = { port with hid_ref := port.hid_ref ++ [.set_report .Output (buf.headD 0) buf] } ∧
      (hs_hid_send_feature_report E port buf buf.length true).port
        = { port with hid_ref := port.hid_ref ++ [.set_report .Feature (buf.headD 0) buf] }) := by
  have hlt : ¬ buf.length < 2 := by omega
  have htail : (buf.drop 1).take (buf.length - 1) = buf.tail := by
    rw [List.drop_one]
    apply List.take_of_length_le
    simp
  unfold hs_hid_write hs_hid_send_feature_report send_report
  simp only [hrem, Bool.false_eq_true, if_false, hlt, Bool.not_true]
  by_cases h0 : buf.headD 0 = 0
  · simp only [h0, if_true, htail, List.length_tail, ne_eq, not_true_eq_false, false_implies,
      and_true, true_implies, true_and]
    omega
  · simp only [h0, if_false, List.take_length, ne_eq, not_false_eq_true, true_implies,
      false_implies, and_true, true_and]
    simp

/-- C5 at the sample port, for a buffer without report id (byte 0 is 0). -/
theorem send_report_returns_size_witness :
    (hs_hid_write sample_errors sample_port [0, 5, 6] [0, 5, 6].length true).ret
      = [0, 5, 6].length ∧
    (hs_hid_send_feature_report sample_errors sample_port [0, 5, 6] [0, 5, 6].length true).ret
      = [0, 5, 6].length ∧
    ([0, 5, 6].headD 0 = 0 →
      [0, 5, 6].tail.length = [0, 5, 6].length - 1 ∧
      (hs_hid_write sample_errors sample_port [0, 5, 6] [0, 5, 6].length true).port
        = { sample_port with
            hid_ref := sample_port.hid_ref ++ [.set_report .Output 0 [0, 5, 6].tail] } ∧
      (hs_hid_send_feature_report sample_errors sample_port [0, 5, 6] [0, 5, 6].length true).port
        = { sample_port with
            hid_ref := sample_port.hid_ref ++ [.set_report .Feature 0 [0, 5, 6].tail] }) ∧
    ([0, 5, 6].headD 0 ≠ 0 →
      (hs_hid_write sample_errors sample_port [0, 5, 6] [0, 5, 6].length true).port
        = { sample_port with
            hid_ref := sample_port.hid_ref ++
              [.set_report .Output ([0, 5, 6].headD 0) [0, 5, 6]] } ∧
      (hs_hid_send_feature_report sample_errors sample_port [0, 5, 6] [0, 5, 6].length true).port
        = { sample_port with
            hid_ref := sample_port.hid_ref ++
              [.set_report .Feature ([0, 5, 6].headD 0) [0, 5, 6]] }) :=
  send_report_returns_size sample_errors sample_port [0, 5, 6] (by decide) (by decide)

/-! ## C6: frames are delivered first-in first-out -/

/-- C7: once the removed flag is set, `hs_hid_read`, `hs_hid_write`,
`hs_hid_get_feature_report` and `hs_hid_send_feature_report` return the `Io`
error for every argument and every behaviour of the environment, without
waiting, and leave the caller's buffer and the whole port unchanged: nothing
is handed to the device, and the queue, the free list and the wake pipe stay
as they were, so queued frames are not delivered. -/
theorem removed_port_fails_with_io (E : hs_error_values) (port : _hs_hid_darwin)
    (hrem : port.device_removed = true) :
    (∀ buf size timeout env,
      hs_hid_read E port buf size timeout env
        = some { ret := hs_error E .Io, buf := buf, port := port, polls := 0 }) ∧
    (∀ buf size kret_ok,
      hs_hid_write E port buf size kret_ok
        = { ret := hs_error E .Io, buf := buf, port := port }) ∧
    (∀ report_id buf size reply,
      hs_hid_get_feature_report E port report_id buf size reply
        = { ret := hs_error E .Io, buf := buf, port := port }) ∧
    (∀ buf size kret_ok,
      hs_hid_send_feature_report E port buf size kret_ok
        = { ret := hs_error E .Io, buf := buf, port := port }) := by
  refine ⟨?_, ?_, ?_, ?_⟩
  · intro buf size timeout env
    exact hs_hid_read_removed E port buf size timeout env hrem
  · intro buf size kret_ok
    unfold hs_hid_write send_report
    rw [hrem]
    simp only [if_true]
  · intro report_id buf size reply
    unfold hs_hid_get_feature_report
    rw [hrem]
    simp only [if_true]
  · intro buf size kret_ok
    unfold hs_hid_send_feature_report send_report
    rw [hrem]
    simp only [if_true]

/-- C7 on the sample port with two frames queued, after the device was
removed. -/
theorem removed_port_fails_with_io_witness :
    (∀ buf size timeout env,
      hs_hid_read sample_errors (hid_removal_callback (deliver_reports sample_port 2))
          buf size timeout env
        = some { ret := hs_error sample_errors .Io, buf := buf,
                 port := hid_removal_callback (deliver_reports sample_port 2), polls := 0 }) ∧
    (∀ buf size kret_ok,
      hs_hid_write sample_errors (hid_removal_callback (deliver_reports sample_port 2))
          buf size kret_ok
        = { ret := hs_error sample_errors .Io, buf := buf,
            port := hid_removal_callback (deliver_reports sample_port 2) }) ∧
    (∀ report_id buf size reply,
      hs_hid_get_feature_report sample_errors
          (hid_removal_callback (deliver_reports sample_port 2)) report_id buf size reply
        = { ret := hs_error sample_errors .Io, buf := buf,
            port := hid_removal_callback (deliver_reports sample_port 2) }) ∧
    (∀ buf size kret_ok,
      hs_hid_send_feature_report sample_errors
          (hid_removal_callback (deliver_reports sample_port 2)) buf size kret_ok
        = { ret := hs_error sample_errors .Io, buf := buf,
            port := hid_removal_callback (deliver_reports sample_port 2) }) :=
  removed_port_fails_with_io sample_errors (hid_removal_callback (deliver_reports sample_port 2))
    (by decide)

/-! ## C8: when the wake channel is signalled -/

/-- The callback writes one byte to the wake pipe when it finds the queue
empty, and none otherwise. -/
theorem report_callback_pipe (E : hs_error_values) (port : _hs_hid_darwin)
    (report_id : Nat) (report_data : List Nat) (calloc_ok : Bool) :
    (hid_report_callback E port .Input report_id report_data calloc_ok).poll_pipe
      = port.poll_pipe + (if port.reports = [] then 1 else 0) := by
  have hpipe : ∀ p1 : _hs_hid_darwin, p1.poll_pipe = port.poll_pipe →
      (if port.reports.isEmpty then fire_device_event p1 else p1).poll_pipe
        = port.poll_pipe + (if port.reports = [] then 1 else 0) := by
    intro p1 hp
    cases hq : port.reports with
    | nil => simp [fire_device_event, hp]
    | cons f q => simp [hp]
  cases hfree : port.free_reports with
  | cons report free =>
    rw [report_callback_reuse E port report_id report_data calloc_ok report free hfree]
    split
    · rename_i he
      have := hpipe { port with free_reports := free, reports := port.reports ++
        [fill_report port.read_size report report_id report_data] } rfl
      rw [if_pos he] at this
      exact this
    · rename_i he
      have := hpipe { port with free_reports := free, reports := port.reports ++
        [fill_report port.read_size report report_id report_data] } rfl
      rw [if_neg he] at this
      exact this
  | nil =>
    by_cases h64 : port.allocated_reports = 64
    · rw [report_callback_full E port report_id report_data calloc_ok hfree h64]
      exact hpipe port rfl
    · cases calloc_ok with
      | false =>
        rw [report_callback_nomem E port report_id report_data hfree h64]
        split
        · rename_i he
          have := hpipe { port with thread_ret := hs_error E .Memory } rfl
          rw [if_pos he] at this
          exact this
        · rename_i he
          have := hpipe { port with thread_ret := hs_error E .Memory } rfl
          rw [if_neg he] at this
          exact this
      | true =>
        rw [report_callback_alloc E port report_id report_data hfree h64]
        split
        · rename_i he
          have := hpipe { port with
            allocated_reports := (port.allocated_reports + 1) % 2 ^ 32
            reports := port.reports ++
              [fill_report port.read_size (calloc_report port) report_id report_data] } rfl
          rw [if_pos he] at this
          exact this
        · rename_i he
          have := hpipe { port with
            allocated_reports := (port.allocated_reports + 1) % 2 ^ 32
            reports := port.reports ++
              [fill_report port.read_size (calloc_report port) report_id report_data] } rfl
          rw [if_neg he] at this
          exact this

/-- C8, as stated, fails: on the freshly opened sample port, whose queue is
empty, a delivery whose frame allocation fails signals the wake channel (the
pipe goes from 0 to 1 byte) although the queue stays empty. -/
theorem c8_signal_without_enqueue :
    open_hid_device sample_errors sample_env true [.reader_runs true, .wakeup]
        = some (.opened sample_port) ∧
      sample_port.reports = [] ∧
      sample_port.poll_pipe = 0 ∧
      (hid_report_callback sample_errors sample_port .Input 1 [9] false).reports = [] ∧
      (hid_report_callback sample_errors sample_port .Input 1 [9] false).poll_pipe = 1 := by
  decide

/-- C8, amended: for every port state in which no reader error is pending and
every input report delivered to `hid_report_callback`, the wake channel is
signalled (one `fire_device_event`) exactly when the queue is empty on entry
to the call, and is left alone otherwise; whenever the call enqueues the
frame, that is exactly when it takes the queue from empty to non-empty.
Every call of `hid_removal_callback`, in every port state, sets the removed
flag and signals the wake channel once, leaving the queue and the free list
as they are. -/
theorem wake_signal_rule (E : hs_error_values) (port : _hs_hid_darwin)
    (report_id : Nat) (report_data : List Nat) (calloc_ok : Bool) :
    (0 ≤ port.thread_ret →
      ((hid_report_callback E port .Input report_id report_data calloc_ok).poll_pipe
          = port.poll_pipe + 1 ↔ port.reports = []) ∧
      ((hid_report_callback E port .Input report_id report_data calloc_ok).poll_pipe
          = port.poll_pipe ↔ port.reports ≠ []) ∧
      ((∃ frame, (hid_report_callback E port .Input report_id report_data calloc_ok).reports
            = port.reports ++ [frame]) →
        ((hid_report_callback E port .Input report_id report_data calloc_ok).poll_pipe
            = port.poll_pipe + 1 ↔
          port.reports = [] ∧
          (hid_report_callback E port .Input report_id report_data calloc_ok).reports ≠ []))) ∧
    (hid_removal_callback port).device_removed = true ∧
    (hid_removal_callback port).poll_pipe = port.poll_pipe + 1 ∧
    (hid_removal_callback port).reports = port.reports ∧
    (hid_removal_callback port).free_reports = port.free_reports := by
  have hp := report_callback_pipe E port report_id report_data calloc_ok
  have h1 : (hid_report_callback E port .Input report_id report_data calloc_ok).poll_pipe
      = port.poll_pipe + 1 ↔ port.reports = [] := by
    rw [hp]
    by_cases hq : port.reports = []
    · simp [hq]
    · simp [hq]
  have h2 : (hid_report_callback E port .Input report_id report_data calloc_ok).poll_pipe
      = port.poll_pipe ↔ port.reports ≠ [] := by
    rw [hp]
    by_cases hq : port.reports = []
    · simp [hq]
    · simp [hq]
  refine ⟨fun _ => ⟨h1, h2, ?_⟩, rfl, rfl, rfl, rfl⟩
  rintro ⟨frame, hf⟩
  rw [h1, hf]
  simp

/-- The amended C8 on the freshly opened sample port, where no reader error
is pending, for a delivery whose frame allocation succeeds. -/
theorem wake_signal_rule_witness :
    ((hid_report_callback sample_errors sample_port .Input 1 [9] true).poll_pipe
        = sample_port.poll_pipe + 1 ↔ sample_port.reports = []) ∧
    ((hid_report_callback sample_errors sample_port .Input 1 [9] true).poll_pipe
        = sample_port.poll_pipe ↔ sample_port.reports ≠ []) ∧
    ((∃ frame, (hid_report_callback sample_errors sample_port .Input 1 [9] true).reports
          = sample_port.reports ++ [frame]) →
      ((hid_report_callback sample_errors sample_port .Input 1 [9] true).poll_pipe
          = sample_port.poll_pipe + 1 ↔
        sample_port.reports = [] ∧
        (hid_report_callback sample_errors sample_port .Input 1 [9] true).reports ≠ [])) :=
  (wake_signal_rule sample_errors sample_port 1 [9] true).1 (by decide)

/-! ## C9: accounting of the allocated frames -/

/-- C9: in every reachable port state `allocated_reports` is the number of
queued frames plus the number of frames on the free list, and is at most 64;
hence the queue never holds more than 64 frames. -/
theorem allocated_reports_accounting (E : hs_error_values) (port : _hs_hid_darwin)
    (h : Reachable E port) :
    port.allocated_reports = port.reports.length + port.free_reports.length ∧
    port.allocated_reports ≤ 64 ∧
    port.reports.length ≤ 64 := by
  obtain ⟨h1, h2, _, _⟩ := reachable_port_inv E port h
  exact ⟨h1, h2, by omega⟩

/-- C9 on the sample port after 70 deliveries and one read. -/
theorem allocated_reports_accounting_witness :
    (hs_hid_read_locked (deliver_reports sample_port 70) [0] 1 0).port.allocated_reports
      = (hs_hid_read_locked (deliver_reports sample_port 70) [0] 1 0).port.reports.length
        + (hs_hid_read_locked (deliver_reports sample_port 70) [0] 1 0).port.free_reports.length ∧
    (hs_hid_read_locked (deliver_reports sample_port 70) [0] 1 0).port.allocated_reports ≤ 64 ∧
    (hs_hid_read_locked (deliver_reports sample_port 70) [0] 1 0).port.reports.length ≤ 64 :=
  allocated_reports_accounting sample_errors
    (hs_hid_read_locked (deliver_reports sample_port 70) [0] 1 0).port
    (Reachable.read (deliver_reports sample_port 70) [0] 1 0 []
      (hs_hid_read_locked (deliver_reports sample_port 70) [0] 1 0)
      (reachable_deliver_reports sample_port 70 reachable_sample_port)
      (by
        have hrem : (deliver_reports sample_port 70).device_removed = false := by
          set_option maxRecDepth 100000 in decide
        unfold hs_hid_read
        rw [hrem]
        simp))

/-! ## C10: the handshake of `open_hid_device` with the reader thread -/

/-- A delivery of a report leaves the handles of the port alone, and leaves
`thread_ret` as it is or replaces it by the `Memory` error. -/
theorem report_callback_handles (E : hs_error_values) (port : _hs_hid_darwin)
    (report_type : IOHIDReportType) (report_id : Nat) (report_data : List Nat)
    (calloc_ok : Bool) :
    same_handles port
        (hid_report_callback E port report_type report_id report_data calloc_ok) ∧
      ((hid_report_callback E port report_type report_id report_data calloc_ok).thread_ret
          = port.thread_ret ∨
        (hid_report_callback E port report_type report_id report_data calloc_ok).thread_ret
          = hs_error E .Memory) := by
  by_cases ht : report_type = IOHIDReportType.Input
  swap
  · unfold hid_report_callback
    rw [report_locked_other E port report_type report_id report_data calloc_ok ht]
    exact ⟨⟨rfl, rfl, rfl, rfl, rfl, rfl⟩, Or.inl rfl⟩
  subst ht
  cases hfree : port.free_reports with
  | cons report free =>
    rw [report_callback_reuse E port report_id report_data calloc_ok report free hfree]
    split <;> exact ⟨⟨rfl, rfl, rfl, rfl, rfl, rfl⟩, Or.inl rfl⟩
  | nil =>
    by_cases h64 : port.allocated_reports = 64
    · rw [report_callback_full E port report_id report_data calloc_ok hfree h64]
      split <;> exact ⟨⟨rfl, rfl, rfl, rfl, rfl, rfl⟩, Or.inl rfl⟩
    · cases calloc_ok with
      | false =>
        rw [report_callback_nomem E port report_id report_data hfree h64]
        split <;> exact ⟨⟨rfl, rfl, rfl, rfl, rfl, rfl⟩, Or.inr rfl⟩
      | true =>
        rw [report_callback_alloc E port report_id report_data hfree h64]
        split <;> exact ⟨⟨rfl, rfl, rfl, rfl, rfl, rfl⟩, Or.inl rfl⟩

/-- Callbacks leave the handles of the port alone, and leave `thread_ret` as
it is or replace it by the `Memory` error. -/
theorem run_callbacks_handles (E : hs_error_values) (cbs : List callback_event) :
    ∀ port : _hs_hid_darwin,
      same_handles port (run_callbacks E port cbs) ∧
      ((run_callbacks E port cbs).thread_ret = port.thread_ret ∨
        (run_callbacks E port cbs).thread_ret = hs_error E .Memory) := by
  induction cbs with
  | nil =>
    intro port
    exact ⟨⟨rfl, rfl, rfl, rfl, rfl, rfl⟩, Or.inl rfl⟩
  | cons c cbs ih =>
    intro port
    have hstep : same_handles port (run_callback E port c) ∧
        ((run_callback E port c).thread_ret = port.thread_ret ∨
          (run_callback E port c).thread_ret = hs_error E .Memory) := by
      cases c with
      | input_report report_type report_id report_data calloc_ok =>
        exact report_callback_handles E port report_type report_id report_data calloc_ok
      | removal => exact ⟨⟨rfl, rfl, rfl, rfl, rfl, rfl⟩, Or.inl rfl⟩
    obtain ⟨⟨a1, a2, a3, a4, a5, a6⟩, ha⟩ := hstep
    obtain ⟨⟨b1, b2, b3, b4, b5, b6⟩, hb⟩ := ih (run_callback E port c)
    have hrun : run_callbacks E port (c :: cbs) = run_callbacks E (run_callback E port c) cbs :=
      rfl
    rw [hrun]
    refine ⟨⟨b1.trans a1, b2.trans a2, b3.trans a3, b4.trans a4, b5.trans a5, b6.trans a6⟩, ?_⟩
    rcases hb with hb | hb
    · rcases ha with ha | ha
      · exact Or.inl (hb.trans ha)
      · exact Or.inr (hb.trans ha)
    · exact Or.inr hb

/-- While nothing has been published, the opener goes back to sleep at every
wake-up. -/
theorem handshake_sleep_wakeups (E : hs_error_values) (port : _hs_hid_darwin)
    (h0 : port.thread_ret = 0) (k : Nat) :
    handshake_sleep E port (List.replicate k .wakeup) = none := by
  induction k with
  | zero => rfl
  | succ k ih =>
    rw [List.replicate_succ, handshake_sleep]
    simp only [ne_eq, h0, not_true_eq_false, if_false]
    exact ih

/-- Once a result is published, the opener leaves the wait at its next
wake-up, with the port as the callbacks delivered in between have left it. -/
theorem handshake_sleep_callbacks (E : hs_error_values) (cbs : List callback_event)
    (rest : List handshake_event) :
    ∀ port : _hs_hid_darwin, port.thread_ret ≠ 0 →
      handshake_sleep E port (cbs.map .callback ++ .wakeup :: rest)
        = some (run_callbacks E port cbs) := by
  induction cbs with
  | nil =>
    intro port hne
    rw [List.map_nil, List.nil_append, handshake_sleep, if_pos hne]
    rfl
  | cons c cbs ih =>
    intro port hne
    have hne2 : (run_callback E port c).thread_ret ≠ 0 := by
      have hm := E.code_neg .Memory
      rcases (run_callbacks_handles E [c] port).2 with h | h
      · have h2 : (run_callback E port c).thread_ret = port.thread_ret := h
        rw [h2]; exact hne
      · have h2 : (run_callback E port c).thread_ret = hs_error E .Memory := h
        rw [h2]
        unfold hs_error
        omega
    rw [List.map_cons, List.cons_append, handshake_sleep]
    exact ih _ hne2

/-- The value that `hid_read_thread` publishes. -/
theorem hid_read_thread_published (E : hs_error_values) (port : _hs_hid_darwin)
    (source_created : Bool) :
    (hid_read_thread E port source_created).thread_ret
        = (if source_created then 1 else hs_error E .System) ∧
      (hid_read_thread E port source_created).thread_ret ≠ 0 := by
  have hs := E.code_neg .System
  cases source_created
  · refine ⟨rfl, ?_⟩
    show hs_error E .System ≠ 0
    unfold hs_error
    omega
  · refine ⟨rfl, ?_⟩
    show (1 : Int) ≠ 0
    decide

/-- The opener sleeps through wake-ups that come before the publication, and
leaves the wait at the first wake-up after it. -/
theorem handshake_wait_published (E : hs_error_values) (port : _hs_hid_darwin)
    (h0 : port.thread_ret = 0) (k : Nat) (source_created : Bool)
    (cbs : List callback_event) (rest : List handshake_event) :
    handshake_wait E port
        (List.replicate k .wakeup ++
          .reader_runs source_created :: (cbs.map .callback ++ .wakeup :: rest))
      = some (run_callbacks E (hid_read_thread E port source_created) cbs) := by
  have hne : ¬ port.thread_ret ≠ 0 := by simp [h0]
  unfold handshake_wait
  rw [if_neg hne]
  induction k with
  | zero =>
    rw [List.replicate_zero, List.nil_append, handshake_sleep]
    exact handshake_sleep_callbacks E cbs rest _
      (hid_read_thread_published E port source_created).2
  | succ k ih =>
    rw [List.replicate_succ, List.cons_append, handshake_sleep, if_neg hne]
    exact ih

/-- An open in read mode whose system calls succeed is decided by the
handshake. -/
theorem open_hid_device_handshake (E : hs_error_values) (env : open_env)
    (sched : List handshake_event) (h : reaches_handshake env) :
    open_hid_device E env true sched =
      match handshake_wait E (handshake_port env) sched with
      | none => none
      | some port =>
          if port.thread_ret < 0 then
            some (.failed port.thread_ret
              (some (close_hid_device { port with thread_ret := 0 })))
          else some (.opened { port with thread_ret := 0 }) := by
  obtain ⟨h1, h2, h3, h4, h5, h6, h7, h8, h9, h10⟩ := h
  obtain ⟨n, hn⟩ := Option.isSome_iff_exists.mp h5
  have h10n : ¬ env.pthread_create_r ≠ 0 := by simp [h10]
  unfold open_hid_device handshake_port
  simp only [h1, h2, h3, h4, h6, Bool.not_true, Bool.false_eq_true, if_false, if_true, hn,
    if_neg h7, if_neg h8, if_neg h9, if_neg h10n, Option.getD_some]

/-- The queue after a delivery: unchanged, or extended by the frame written
into a buffer that is fresh from `calloc` or was taken from the free list. -/
theorem report_callback_reports (E : hs_error_values) (port : _hs_hid_darwin)
    (report_id : Nat) (report_data : List Nat) (calloc_ok : Bool) :
    ((port.free_reports = [] ∧ (port.allocated_reports = 64 ∨ calloc_ok = false)) ∧
      (hid_report_callback E port .Input report_id report_data calloc_ok).reports
        = port.reports) ∨
    ((port.free_reports ≠ [] ∨ (port.allocated_reports ≠ 64 ∧ calloc_ok = true)) ∧
      ∃ report, (report = calloc_report port ∨ report ∈ port.free_reports) ∧
        (hid_report_callback E port .Input report_id report_data calloc_ok).reports
          = port.reports ++ [fill_report port.read_size report report_id report_data]) := by
  cases hfree : port.free_reports with
  | cons report free =>
    refine Or.inr ⟨Or.inl (List.cons_ne_nil _ _), report, Or.inr (List.mem_cons_self _ _), ?_⟩
    rw [report_callback_reuse E port report_id report_data calloc_ok report free hfree]
    split <;> rfl
  | nil =>
    by_cases h64 : port.allocated_reports = 64
    · refine Or.inl ⟨⟨rfl, Or.inl h64⟩, ?_⟩
      rw [report_callback_full E port report_id report_data calloc_ok hfree h64]
      split <;> rfl
    · cases calloc_ok with
      | false =>
        refine Or.inl ⟨⟨rfl, Or.inr rfl⟩, ?_⟩
        rw [report_callback_nomem E port report_id report_data hfree h64]
        split <;> rfl
      | true =>
        refine Or.inr ⟨Or.inr ⟨h64, rfl⟩, calloc_report port, Or.inl rfl, ?_⟩
        rw [report_callback_alloc E port report_id report_data hfree h64]
        split <;> rfl

/-- C11: in every reachable port state, a frame that `hid_report_callback`
enqueues for an input report with id `report_id` and payload `report_data` of
length `n` consists of the byte `(uint8_t)report_id` (the id itself when it is
below 256) followed by the first `min n read_size` bytes of the payload; its
stored size is `min n read_size + 1`, which does not exceed the
`read_size + 1` bytes of the frame buffer.  This holds for a buffer fresh from
`calloc` and for one reused from the free list, and a frame is enqueued
whenever the free list is not empty or a new frame can be allocated. -/
theorem enqueued_frame_layout (E : hs_error_values) (port : _hs_hid_darwin)
    (report_id : Nat) (report_data : List Nat) (calloc_ok : Bool) (h : Reachable E port) :
    (∀ frame,
      (hid_report_callback E port .Input report_id report_data calloc_ok).reports
          = port.reports ++ [frame] →
      frame.size = min report_data.length port.read_size + 1 ∧
      frame.data.take frame.size
        = (report_id % 256) :: report_data.take (min report_data.length port.read_size) ∧
      (report_id < 256 → frame.data.head? = some report_id) ∧
      frame.data.length = port.read_size + 1 ∧
      frame.size ≤ frame.data.length) ∧
    ((port.free_reports ≠ [] ∨ (port.allocated_reports ≠ 64 ∧ calloc_ok = true)) →
      ∃ frame,
        (hid_report_callback E port .Input report_id report_data calloc_ok).reports
          = port.reports ++ [frame]) := by
  obtain ⟨_, _, _, h5⟩ := reachable_port_inv E port h
  have hcases := report_callback_reports E port report_id report_data calloc_ok
  refine ⟨?_, ?_⟩
  · intro frame hframe
    rcases hcases with ⟨_, hsame⟩ | ⟨_, report, hrep, henq⟩
    · rw [hsame] at hframe
      have := congrArg List.length hframe
      simp at this
    · rw [henq] at hframe
      have hfr : frame = fill_report port.read_size report report_id report_data := by
        have := List.append_cancel_left hframe
        simpa using this.symm
      have hbuf : report.data.length = port.read_size + 1 := by
        rcases hrep with hrep | hrep
        · rw [hrep]; simp [calloc_report]
        · exact (h5 report hrep).1
      have hok := frame_ok_fill port.read_size report report_id report_data hbuf
      have hbytes := fill_report_bytes port.read_size report report_id report_data
      rw [hfr]
      refine ⟨hbytes.1, hbytes.2, ?_, hok.1, ?_⟩
      · intro hid
        show some (report_id % 256) = some report_id
        rw [Nat.mod_eq_of_lt hid]
      · rw [hok.1]; exact hok.2
  · intro hcan
    rcases hcases with ⟨⟨hfree, hno⟩, _⟩ | ⟨_, report, _, henq⟩
    · rcases hcan with hcan | ⟨h64, hok⟩
      · exact absurd hfree hcan
      · rcases hno with hno | hno
        · exact absurd hno h64
        · rw [hok] at hno; cases hno
    · exact ⟨_, henq⟩

/-- C11 on the sample port after three deliveries and one read, so that the
next delivery reuses the frame buffer released by the read. -/
theorem enqueued_frame_layout_witness :
    (∀ frame,
      (hid_report_callback sample_errors
          (hs_hid_read_locked (deliver_reports sample_port 3) [0] 1 0).port
          .Input 300 [5, 6, 7, 8, 9, 10] false).reports
          = (hs_hid_read_locked (deliver_reports sample_port 3) [0] 1 0).port.reports
              ++ [frame] →
      frame.size = min [5, 6, 7, 8, 9, 10].length
          (hs_hid_read_locked (deliver_reports sample_port 3) [0] 1 0).port.read_size + 1 ∧
      frame.data.take frame.size
        = (300 % 256) :: [5, 6, 7, 8, 9, 10].take (min [5, 6, 7, 8, 9, 10].length
            (hs_hid_read_locked (deliver_reports sample_port 3) [0] 1 0).port.read_size) ∧
      (300 < 256 → frame.data.head? = some 300) ∧
      frame.data.length
        = (hs_hid_read_locked (deliver_reports sample_port 3) [0] 1 0).port.read_size + 1 ∧
      frame.size ≤ frame.data.length) ∧
    (((hs_hid_read_locked (deliver_reports sample_port 3) [0] 1 0).port.free_reports ≠ [] ∨
        ((hs_hid_read_locked (deliver_reports sample_port 3) [0] 1 0).port.allocated_reports
            ≠ 64 ∧ false = true)) →
      ∃ frame,
        (hid_report_callback sample_errors
            (hs_hid_read_locked (deliver_reports sample_port 3) [0] 1 0).port
            .Input 300 [5, 6, 7, 8, 9, 10] false).reports
          = (hs_hid_read_locked (deliver_reports sample_port 3) [0] 1 0).port.reports
              ++ [frame]) :=
  enqueued_frame_layout sample_errors
    (hs_hid_read_locked (deliver_reports sample_port 3) [0] 1 0).port 300 [5, 6, 7, 8, 9, 10]
    false
    (Reachable.read (deliver_reports sample_port 3) [0] 1 0 []
      (hs_hid_read_locked (deliver_reports sample_port 3) [0] 1 0)
      (reachable_deliver_reports sample_port 3 reachable_sample_port) (by decide))

/-! ## C13: the wake pipe and the queue can get out of step -/

/-- C13 fails on the code.  On the freshly opened sample port two input
reports arrive whose frame allocation fails: each delivery finds the queue
empty and writes a byte, so the wake pipe holds two bytes.  The next read
returns the recorded `Memory` error and takes one byte out; the port is then
`stale_port`: nothing queued, no error pending, one byte in the pipe.  From
there a read with a 500 ms timeout is woken at once and finds nothing: it
returns 0 without waiting for the report that arrives within the timeout and
leaves the stale byte in place, whereas the same read on the freshly opened
port waits and returns that report. -/
theorem c13_stale_wake_byte :
    open_hid_device sample_errors sample_env true [.reader_runs true, .wakeup]
        = some (.opened sample_port) ∧
      nomem_port.reports = [] ∧
      nomem_port.poll_pipe = 2 ∧
      hs_hid_read sample_errors nomem_port [0, 0] 2 0 []
        = some { ret := hs_error sample_errors .Memory, buf := [0, 0], port := stale_port,
                 polls := 0 } ∧
      stale_port.reports = [] ∧ stale_port.thread_ret = 0 ∧ stale_port.poll_pipe = 1 ∧
      stale_port.device_removed = false ∧
      hs_hid_read sample_errors stale_port [0, 0] 2 500 [.input_report .Input 1 [5] true]
        = some { ret := 0, buf := [0, 0], port := stale_port, polls := 1 } ∧
      (hs_hid_read sample_errors sample_port [0, 0] 2 500
          [.input_report .Input 1 [5] true]).map (fun res => (res.ret, res.buf))
        = some (2, [1, 5]) := by
  decide

/-! ## C14: buffers too short to hold a report -/

/-- C14: on a port that is not removed, `hs_hid_write` and
`hs_hid_send_feature_report` given a buffer of size 0 or 1 return 0 and leave
the port as it is, so nothing is handed to the device, whatever the buffer
holds and whatever the device would have answered. -/
theorem short_buffer_not_sent (E : hs_error_values) (port : _hs_hid_darwin)
    (buf : List Nat) (size : Nat) (kret_ok : Bool)
    (hrem : port.device_removed = false) (hsize : size < 2) :
    hs_hid_write E port buf size kret_ok = { ret := 0, buf := buf, port := port } ∧
    hs_hid_send_feature_report E port buf size kret_ok
      = { ret := 0, buf := buf, port := port } := by
  unfold hs_hid_write hs_hid_send_feature_report send_report
  rw [hrem]
  simp only [Bool.false_eq_true, if_false, hsize, if_true, and_self]

/-- C14 on the sample port, for a one-byte buffer holding the report id 3. -/
theorem short_buffer_not_sent_witness :
    hs_hid_write sample_errors sample_port [3] 1 true
      = { ret := 0, buf := [3], port := sample_port } ∧
    hs_hid_send_feature_report sample_errors sample_port [3] 1 true
      = { ret := 0, buf := [3], port := sample_port } :=
  short_buffer_not_sent sample_errors sample_port [3] 1 true (by decide) (by decide)

end HidDarwin

/-! # C12: the reference held on the selected board -/

namespace Tyc

theorem ledger_ok_board_callback (m : Nat → Option String → Bool) (st : cli_state)
    (board : Nat) (event : ty_monitor_event) (h : ledger_ok st) :
    ledger_ok (board_callback m st board event).1 := by
  obtain ⟨h1, h2⟩ := h
  cases event with
  | ADDED =>
    unfold board_callback
    by_cases hc : st.main_board = none ∧ m board st.board_tag = true
    · simp only [hc, and_self, if_true, ty_board_ref]
      have hnone := hc.1
      rw [hnone] at h1 h2
      constructor
      · intro b
        have := h1 b
        simp only [List.count_append, List.count_singleton, Option.some.injEq]
        simp only [reduceCtorEq, if_false, Nat.add_zero] at this
        by_cases hb : board = b
        · simp [hb, this]
        · simp [hb, this]
      · simp only [List.length_append, List.length_singleton, reduceCtorEq, if_false]
        simp only [if_true, Nat.add_zero] at h2
        omega
    · simp only [hc, if_false]
      exact ⟨h1, h2⟩
  | CHANGED => exact ⟨h1, h2⟩
  | DISAPPEARED => exact ⟨h1, h2⟩
  | DROPPED =>
    unfold board_callback
    by_cases hc : st.main_board = some board
    · simp only [hc, if_true, ty_board_unref]
      rw [hc] at h1 h2
      constructor
      · intro b
        have := h1 b
        simp only [List.count_append, List.count_singleton, reduceCtorEq, if_false,
          Nat.add_zero]
        simp only [Option.some.injEq] at this
        by_cases hb : board = b
        · simp [hb] at this ⊢
          omega
        · simp [hb] at this ⊢
          omega
      · simp only [List.length_append, List.length_singleton, if_true, Nat.add_zero]
        simp only [reduceCtorEq, if_false] at h2
        omega
    · simp only [hc, if_false]
      exact ⟨h1, h2⟩

theorem ledger_ok_deliver_events (m : Nat → Option String → Bool)
    (evs : List (Nat × ty_monitor_event)) :
    ∀ st, ledger_ok st → ledger_ok (deliver_events m st evs) := by
  induction evs with
  | nil => intro st h; exact h
  | cons e evs ih =>
    intro st h
    obtain ⟨board, event⟩ := e
    exact ih _ (ledger_ok_board_callback m st board event h)

theorem board_callback_added_select (m : Nat → Option String → Bool) (st : cli_state)
    (board : Nat) (hnone : st.main_board = none) (hm : m board st.board_tag = true) :
    board_callback m st board .ADDED
      = ({ st with main_board := some board, acquired := st.acquired ++ [board] }, 0) := by
  simp only [board_callback, hnone, hm, and_self, if_true, ty_board_ref]

theorem board_callback_added_skip (m : Nat → Option String → Bool) (st : cli_state)
    (board : Nat) (hc : ¬ (st.main_board = none ∧ m board st.board_tag = true)) :
    board_callback m st board .ADDED = (st, 0) := by
  simp only [board_callback, hc, if_false]

theorem board_callback_dropped_main (m : Nat → Option String → Bool) (st : cli_state)
    (board : Nat) (hc : st.main_board = some board) :
    board_callback m st board .DROPPED
      = ({ st with main_board := none, released := st.released ++ [board] }, 0) := by
  simp only [board_callback, hc, if_true, ty_board_unref]

theorem board_callback_dropped_other (m : Nat → Option String → Bool) (st : cli_state)
    (board : Nat) (hc : ¬ st.main_board = some board) :
    board_callback m st board .DROPPED = (st, 0) := by
  simp only [board_callback, hc, if_false]

/-- C12: after any sequence of monitor events delivered to `board_callback`,
starting with no board selected and no reference taken, the tool holds exactly
one reference, on the selected board, when `main_board` is set, and none
otherwise.  On every such state the callback returns 0; `CHANGED` and
`DISAPPEARED` change nothing; the selection changes only when an `ADDED`
event for a board matching the tag arrives while nothing is selected (the
board is selected and one reference acquired) or when a `DROPPED` event
arrives for the selected board (it is deselected and that reference
released), and both of these do change it; a call that leaves the selection
as it is leaves the references as they are. -/
theorem main_board_holds_one_reference (m : Nat → Option String → Bool)
    (tag : Option String) (evs : List (Nat × ty_monitor_event)) (board : Nat)
    (event : ty_monitor_event) :
    (∀ b, held_references (deliver_events m (initial_state tag) evs) b
      = if (deliver_events m (initial_state tag) evs).main_board = some b then 1 else 0) ∧
    (((deliver_events m (initial_state tag) evs).acquired.length : Int)
        - (deliver_events m (initial_state tag) evs).released.length
      = if (deliver_events m (initial_state tag) evs).main_board = none then 0 else 1) ∧
    (board_callback m (deliver_events m (initial_state tag) evs) board event).2 = 0 ∧
    (event = .CHANGED ∨ event = .DISAPPEARED →
      (board_callback m (deliver_events m (initial_state tag) evs) board event).1
        = deliver_events m (initial_state tag) evs) ∧
    ((board_callback m (deliver_events m (initial_state tag) evs) board event).1.main_board
        ≠ (deliver_events m (initial_state tag) evs).main_board →
      (event = .ADDED ∧
        (deliver_events m (initial_state tag) evs).main_board = none ∧
        m board (deliver_events m (initial_state tag) evs).board_tag = true ∧
        (board_callback m (deliver_events m (initial_state tag) evs) board event).1
          = { deliver_events m (initial_state tag) evs with
              main_board := some board
              acquired := (deliver_events m (initial_state tag) evs).acquired ++ [board] }) ∨
      (event = .DROPPED ∧
        (deliver_events m (initial_state tag) evs).main_board = some board ∧
        (board_callback m (deliver_events m (initial_state tag) evs) board event).1
          = { deliver_events m (initial_state tag) evs with
              main_board := none
              released := (deliver_events m (initial_state tag) evs).released ++ [board] })) ∧
    ((board_callback m (deliver_events m (initial_state tag) evs) board event).1.main_board
        = (deliver_events m (initial_state tag) evs).main_board →
      (board_callback m (deliver_events m (initial_state tag) evs) board event).1
        = deliver_events m (initial_state tag) evs) ∧
    ((deliver_events m (initial_state tag) evs).main_board = none →
      m board (deliver_events m (initial_state tag) evs).board_tag = true →
      (board_callback m (deliver_events m (initial_state tag) evs) board .ADDED).1.main_board
        = some board) ∧
    ((deliver_events m (initial_state tag) evs).main_board = some board →
      (board_callback m (deliver_events m (initial_state tag) evs) board .DROPPED).1.main_board
        = none) := by
  have hinit : ledger_ok (initial_state tag) := by
    constructor
    · intro b; simp [initial_state]
    · simp [initial_state]
  obtain ⟨h1, h2⟩ := ledger_ok_deliver_events m evs (initial_state tag) hinit
  generalize deliver_events m (initial_state tag) evs = st at h1 h2 ⊢
  refine ⟨?_, ?_, ?_, ?_, ?_, ?_, ?_, ?_⟩
  · intro b
    unfold held_references
    rw [h1 b]
    split <;> simp
  · rw [h2]
    split <;> simp
  · cases event with
    | ADDED =>
      by_cases hc : st.main_board = none ∧ m board st.board_tag = true
      · rw [board_callback_added_select m st board hc.1 hc.2]
      · rw [board_callback_added_skip m st board hc]
    | CHANGED => rfl
    | DISAPPEARED => rfl
    | DROPPED =>
      by_cases hc : st.main_board = some board
      · rw [board_callback_dropped_main m st board hc]
      · rw [board_callback_dropped_other m st board hc]
  · rintro (he | he) <;> rw [he] <;> rfl
  · intro hne
    cases event with
    | ADDED =>
      by_cases hc : st.main_board = none ∧ m board st.board_tag = true
      · left
        rw [board_callback_added_select m st board hc.1 hc.2]
        exact ⟨rfl, hc.1, hc.2, rfl⟩
      · rw [board_callback_added_skip m st board hc] at hne
        exact absurd rfl hne
    | CHANGED => exact absurd rfl hne
    | DISAPPEARED => exact absurd rfl hne
    | DROPPED =>
      by_cases hc : st.main_board = some board
      · right
        rw [board_callback_dropped_main m st board hc]
        exact ⟨rfl, hc, rfl⟩
      · rw [board_callback_dropped_other m st board hc] at hne
        exact absurd rfl hne
  · intro heq
    cases event with
    | ADDED =>
      by_cases hc : st.main_board = none ∧ m board st.board_tag = true
      · rw [board_callback_added_select m st board hc.1 hc.2] at heq
        have : some board = st.main_board := heq
        rw [hc.1] at this
        cases this
      · rw [board_callback_added_skip m st board hc]
    | CHANGED => rfl
    | DISAPPEARED => rfl
    | DROPPED =>
      by_cases hc : st.main_board = some board
      · rw [board_callback_dropped_main m st board hc] at heq
        have : none = st.main_board := heq
        rw [hc] at this
        cases this
      · rw [board_callback_dropped_other m st board hc]
  · intro hnone hm
    rw [board_callback_added_select m st board hnone hm]
  · intro hsome
    rw [board_callback_dropped_main m st board hsome]

end Tyc
